import Mathlib

/-!
Verification development for a personal memory-store assistant.

The embedding models, from the repository sources:
  - `utils/timestamps.py` : ISO-8601 timestamp generation and validation;
  - `memory/telos.py`     : the append-only goal/task ledger (JSONL file modelled
    as a list of typed records, since `json.dump`/`json.loads` round-trip the
    dictionaries the module writes exactly, one per line);
  - `memory/journal.py`   : the append-only journal ledger, modelled at the
    string level (the Markdown/YAML rendering is where the interesting
    behaviour lives);
  - `proposals/__init__.py` : LLM-output parsing and proposal validation;
  - `changes/__init__.py`   : the mutation engine with audit records;
  - `context/__init__.py`   : the context size enforcement.

Wall-clock time is modelled by a `Nat` tick counter: each call to
`get_current_timestamp()` consumes one tick, and the tick is rendered into the
microsecond field of a fixed date.  This preserves everything the code relies
on: generated timestamps are valid ISO-8601 and successive calls differ.
-/

set_option maxRecDepth 4096
set_option linter.unusedVariables false

namespace Assistant

/-! ### Python string primitives -/

/-- The ASCII apostrophe character (code point 39). -/
def apoCh : Char := Char.ofNat 39

/-- The ASCII apostrophe as a one-character string. -/
def apoStr : String := String.singleton apoCh

/-- Whitespace characters recognised by Python `str.strip()`. -/
def pyIsSpace (c : Char) : Bool :=
  [' ', '\t', '\n', '\r', '\x0b', '\x0c'].contains c

/-- Strip one optional leading sign, reporting whether it was a minus. -/
def signSplit : List Char → Bool × List Char
  | '-' :: r => (true, r)
  | '+' :: r => (false, r)
  | cs => (false, cs)

/-- Python `str.strip()` on a character list. -/
def pyStripList (l : List Char) : List Char :=
  ((l.dropWhile pyIsSpace).reverse.dropWhile pyIsSpace).reverse

/-- Python `str.strip()`. -/
def pyStrip (s : String) : String :=
  String.mk (pyStripList s.toList)

/-- Python `str.lower()` (the repository only lowercases ASCII data). -/
def pyLower (s : String) : String :=
  String.mk (s.toList.map Char.toLower)

/-- Does `l` start with the pattern `pat`? -/
def hasPrefixCh : List Char → List Char → Bool
  | _, [] => true
  | [], _ :: _ => false
  | c :: cs, p :: ps => c == p && hasPrefixCh cs ps

/-- Python `pat in s` on character lists (substring containment). -/
def containsSub : List Char → List Char → Bool
  | [], pat => pat.isEmpty
  | l@(_ :: rest), pat => hasPrefixCh l pat || containsSub rest pat

/-- Python `pat in s` (substring containment). -/
def strContains (s pat : String) : Bool :=
  containsSub s.toList pat.toList

/-- Python `sep.join(xs)`. -/
def pyJoin (sep : String) : List String → String
  | [] => ""
  | [x] => x
  | x :: rest => x ++ sep ++ pyJoin sep rest

/-- Python `s[:n]` (the upper-bound slice, with negative-index semantics). -/
def pySliceTo (s : String) (n : Int) : String :=
  if 0 ≤ n then String.mk (s.toList.take n.toNat)
  else String.mk (s.toList.take ((s.length : Int) + n).toNat)

/-- Python `s.replace(c, "")` for a single character: drop every occurrence. -/
def pyRemoveChar (s : String) (c : Char) : String :=
  String.mk (s.toList.filter (fun x => x != c))

/-- Truthiness of an optional string (Python `if x:` on `Optional[str]`). -/
def optTruthy : Option String → Bool
  | none => false
  | some v => !v.isEmpty

/-- Python `a or b` on optional strings: yields `b` whenever `a` is falsy. -/
def pyOrOpt (a b : Option String) : Option String :=
  if optTruthy a then a else b

/-- Python `str(x)` on an optional string (`None` prints as "None"). -/
def pyShowOptStr : Option String → String
  | none => "None"
  | some s => s

/-! ### Timestamps (`utils/timestamps.py`)

`get_current_timestamp()` returns `datetime.now(timezone.utc).isoformat()`.
We model the wall clock by a tick counter rendered into the microsecond
field of a fixed date, which matches the shape of the generated strings. -/

/-- The decimal digit character of `m % 10`. -/
def digc (m : Nat) : Char := Char.ofNat (48 + m % 10)

/-- Model of `get_current_timestamp()` at tick `n`:
`2024-01-01T00:00:00.nnnnnn+00:00` with the tick in the microsecond field. -/
def mkTimestamp (n : Nat) : String :=
  String.mk
    ['2', '0', '2', '4', '-', '0', '1', '-', '0', '1', 'T',
     '0', '0', ':', '0', '0', ':', '0', '0', '.',
     digc (n / 100000), digc (n / 10000), digc (n / 1000),
     digc (n / 100), digc (n / 10), digc n,
     '+', '0', '0', ':', '0', '0']

/-- Are all characters decimal digits? -/
def allDigits (l : List Char) : Bool := l.all Char.isDigit

/-- Trailing UTC-offset acceptance of `datetime.fromisoformat` (after the
`Z`-replacement done by `parse_timestamp`): empty, or `±HH:MM`. -/
def isoOffsetOk : List Char → Bool
  | [] => true
  | '+' :: h1 :: h2 :: ':' :: m1 :: m2 :: [] => allDigits [h1, h2, m1, m2]
  | '-' :: h1 :: h2 :: ':' :: m1 :: m2 :: [] => allDigits [h1, h2, m1, m2]
  | _ => false

/-- Fractional-second acceptance of `datetime.fromisoformat`: exactly six or
exactly three digits, then the offset. -/
def isoFracOk : List Char → Bool
  | a :: b :: c :: d :: e :: f :: rest =>
      (allDigits [a, b, c, d, e, f] && isoOffsetOk rest) ||
      (allDigits [a, b, c] && isoOffsetOk (d :: e :: f :: rest))
  | a :: b :: c :: rest => allDigits [a, b, c] && isoOffsetOk rest
  | _ => false

/-- Time-part acceptance of `datetime.fromisoformat`: `HH:MM`, optionally
`:SS`, optionally `.fff` or `.ffffff`, then an optional offset. -/
def isoTimeOk : List Char → Bool
  | h1 :: h2 :: ':' :: m1 :: m2 :: rest =>
      allDigits [h1, h2, m1, m2] &&
      (match rest with
       | [] => true
       | ':' :: s1 :: s2 :: rest2 =>
           allDigits [s1, s2] &&
           (match rest2 with
            | [] => true
            | '.' :: fr => isoFracOk fr
            | off => isoOffsetOk off)
       | off => isoOffsetOk off)
  | _ => false

/-- Model of `validate_timestamp`: acceptance of `datetime.fromisoformat`
(on the `YYYY-MM-DD[THH:MM[:SS[.fff[fff]]]][±HH:MM]` shapes this program
reads and writes; calendar-range checks are not load-bearing here and are
not modelled). -/
def validateTimestamp (s : String) : Bool :=
  match s.toList with
  | y1 :: y2 :: y3 :: y4 :: '-' :: mo1 :: mo2 :: '-' :: d1 :: d2 :: rest =>
      allDigits [y1, y2, y3, y4, mo1, mo2, d1, d2] &&
      (match rest with
       | [] => true
       | 'T' :: t => isoTimeOk t
       | _ => false)
  | _ => false

/-- The `id` suffix built by `add_goal` / `add_task` / `update_status`:
`get_current_timestamp().replace(":", "").replace("-", "").replace(".", "")`. -/
def tsDigits (n : Nat) : String :=
  pyRemoveChar (pyRemoveChar (pyRemoveChar (mkTimestamp n) ':') '-') '.'

/-! ### The Telos store (`memory/telos.py`)

A line of `telos.jsonl` is one JSON object; `json.dump`/`json.loads`
round-trip these objects exactly, so the file is modelled as a list of typed
records.  `Option` marks the fields that are absent on some record kinds
(a dictionary key that is absent and a key whose value is `None` behave
identically under every `entry.get(...)` access the module performs, so the
two are conflated). -/

/-- One entry of the Telos JSONL file: a goal/task creation record
(`asdict(Goal)` / `asdict(Task)`) or a `status_update` annotation. -/
structure TEntry where
  id : String
  timestamp : String
  type : String
  content : Option String := none
  status : Option String := none
  tags : Option (List String) := none
  priority : Option String := none
  due_date : Option String := none
  parent_goal : Option String := none
  target_id : Option String := none
  old_status : Option String := none
  new_status : Option String := none
  target_type : Option String := none
  deriving DecidableEq, Repr

/-- Valid statuses for a goal. -/
def goalStatuses : List String := ["active", "completed", "cancelled"]

/-- Valid statuses for a task. -/
def taskStatuses : List String := ["pending", "in_progress", "completed", "cancelled"]

/-- `TelosManager._validate_entry`, as a pass/fail check (the code raises
`TelosError` with a message; only the pass/fail outcome is load-bearing).
Mirrors the source order: required-field presence by type, timestamp format,
type membership, then the per-type status checks. -/
def validateEntry (e : TEntry) : Bool :=
  (if e.type == "goal" || e.type == "task" then e.content.isSome
   else if e.type == "status_update" then
     e.target_id.isSome && e.new_status.isSome && e.target_type.isSome
   else e.content.isSome) &&
  validateTimestamp e.timestamp &&
  (e.type == "goal" || e.type == "task" || e.type == "status_update") &&
  (if e.type == "goal" || e.type == "task" then
     (match e.status with
      | some s => (if e.type == "goal" then goalStatuses else taskStatuses).contains s
      | none => false)
   else if e.type == "status_update" then
     (match e.target_type with
      | some "goal" =>
          (match e.new_status with
           | some s => goalStatuses.contains s
           | none => false)
      | some "task" =>
          (match e.new_status with
           | some s => taskStatuses.contains s
           | none => false)
      | _ => false)
   else true)

/-- `TelosManager._append_entry`: validate, then append one line. -/
def appendEntry (st : List TEntry) (e : TEntry) : Except String (List TEntry) :=
  if validateEntry e then .ok (st ++ [e]) else .error "TelosError: invalid entry"

/-- `TelosManager.add_goal`.  Consumes two clock ticks (the id and the
`timestamp` field each call `get_current_timestamp()`).  Returns the new id,
the new store, and the advanced clock. -/
def addGoal (st : List TEntry) (clock : Nat) (content : String)
    (tags : List String := []) (priority : String := "medium")
    (due_date : Option String := none) :
    Except String (String × List TEntry × Nat) :=
  let gid := "goal_" ++ tsDigits clock
  let g : TEntry :=
    { id := gid, timestamp := mkTimestamp (clock + 1), type := "goal",
      content := some content, status := some "active", tags := some tags,
      priority := some priority, due_date := due_date, parent_goal := none }
  (appendEntry st g).map (fun st2 => (gid, st2, clock + 2))

/-- `TelosManager.add_task`. -/
def addTask (st : List TEntry) (clock : Nat) (content : String)
    (parent_goal : Option String := none) (tags : List String := [])
    (priority : String := "medium") (due_date : Option String := none) :
    Except String (String × List TEntry × Nat) :=
  let tid := "task_" ++ tsDigits clock
  let t : TEntry :=
    { id := tid, timestamp := mkTimestamp (clock + 1), type := "task",
      content := some content, status := some "pending", tags := some tags,
      priority := some priority, due_date := due_date, parent_goal := parent_goal }
  (appendEntry st t).map (fun st2 => (tid, st2, clock + 2))

/-- `TelosManager.get_all_entries`: replay the file, validating each line and
skipping invalid ones. -/
def getAllEntries (st : List TEntry) : List TEntry :=
  st.filter validateEntry

/-- `TelosManager.get_goals`: filter by kind, then (when the filter is truthy)
by the creation record's raw `status` field. -/
def getGoals (st : List TEntry) (statusFilter : Option String := none) : List TEntry :=
  let goals := (getAllEntries st).filter (fun e => e.type == "goal")
  if optTruthy statusFilter then
    goals.filter (fun g => g.status == statusFilter)
  else goals

/-- `TelosManager.get_tasks`: filter by kind, then by the raw `status` field
and/or the `parent_goal` field (each only when truthy). -/
def getTasks (st : List TEntry) (statusFilter : Option String := none)
    (parent_goal : Option String := none) : List TEntry :=
  let tasks := (getAllEntries st).filter (fun e => e.type == "task")
  let tasks :=
    if optTruthy statusFilter then
      tasks.filter (fun t => t.status == statusFilter)
    else tasks
  if optTruthy parent_goal then
    tasks.filter (fun t => t.parent_goal == parent_goal)
  else tasks

/-- The `status_update` dictionary built by `update_status`: note that
`old_status` is `entry.get("status")` of the record found by id.  The
annotation id consumes one tick and its `timestamp` field the next one. -/
def statusUpdateRec (entry_id : String) (entry : TEntry) (new_status : String)
    (clock : Nat) : TEntry :=
  { id := "update_" ++ entry_id ++ "_" ++ tsDigits clock,
    timestamp := mkTimestamp (clock + 1), type := "status_update",
    target_id := some entry_id, old_status := entry.status,
    new_status := some new_status, target_type := some entry.type }

/-- `TelosManager.update_status`: find the first entry with the given id among
the validated entries; `false` if absent; `TelosError` if the new status is not
valid for the entry's kind; otherwise append one `status_update` annotation. -/
def updateStatus (st : List TEntry) (clock : Nat) (entry_id : String)
    (new_status : String) : Except String (Bool × List TEntry × Nat) :=
  let entries := getAllEntries st
  match entries.find? (fun e => e.id == entry_id) with
  | none => .ok (false, st, clock)
  | some entry =>
    let valid := if entry.type == "goal" then goalStatuses else taskStatuses
    if valid.contains new_status then
      (appendEntry st (statusUpdateRec entry_id entry new_status clock)).map
        (fun st2 => (true, st2, clock + 2))
    else .error ("TelosError: Invalid status for " ++ entry.type ++ ": " ++ new_status)

/-- Modelled from the spec (section 3; the source has no such resolver): the
*current* status of a record is the `new_status` of the most-recently-appended
annotation targeting it, or the creation record's `status` field if no
annotation exists. -/
def resolveCurrentStatus (st : List TEntry) (id : String) : Option String :=
  let anns := st.filter (fun e => e.type == "status_update" && e.target_id == some id)
  match anns.getLast? with
  | some a => a.new_status
  | none => (st.find? (fun e => e.id == id)).bind (fun e => e.status)

/-! ### The journal store (`memory/journal.py`)

The journal file is a single string.  Frontmatter values are strings or
lists of strings (the only shapes `_format_entry` ever writes), dumped and
re-read with a model of PyYAML restricted to those shapes. -/

/-- A YAML frontmatter value, as written/read by the journal module. -/
inductive YVal where
  | str (v : String)
  | list (v : List String)
  deriving DecidableEq, Repr

/-- A journal entry (the `JournalEntry` dataclass). -/
structure JEntry where
  timestamp : String
  type : String := "reflection"
  content : String := ""
  tags : List String := []
  mood : Option String := none
  location : Option String := none
  weather : Option String := none
  deriving DecidableEq, Repr

/-- The journal entry types accepted by `_validate_entry`. -/
def journalTypes : List String :=
  ["reflection", "gratitude", "learning", "goal_review", "planning"]

/-- Does `yaml.dump` single-quote this scalar?  On the scalars this program
writes (ISO timestamps, entry types, tags, moods, places) PyYAML quotes
exactly the ones containing a colon, i.e. the timestamps. -/
def yamlQuoteNeeded (v : String) : Bool :=
  strContains v ":"

/-- One line (or block) of `yaml.dump(..., default_flow_style=False)` for a
single key/value pair. -/
def yamlDumpPair (k : String) (v : YVal) : String :=
  match v with
  | .list [] => k ++ ": []\n"
  | .list items => k ++ ":\n" ++ String.join (items.map (fun i => "- " ++ i ++ "\n"))
  | .str v => k ++ ": " ++ (if yamlQuoteNeeded v then apoStr ++ v ++ apoStr else v) ++ "\n"

/-- `yaml.dump` of a frontmatter mapping (keys already in the alphabetical
order `sort_keys=True` produces). -/
def yamlDump (fm : List (String × YVal)) : String :=
  String.join (fm.map (fun kv => yamlDumpPair kv.1 kv.2))

/-- The frontmatter mapping built by `_format_entry`, enumerated in the
alphabetical key order that `yaml.dump(..., sort_keys=True)` emits:
location < mood < tags < timestamp < type < weather.  The optional fields are
included only when truthy (`if entry.mood:` etc.). -/
def journalFrontmatter (e : JEntry) : List (String × YVal) :=
  (if optTruthy e.location then [("location", YVal.str (e.location.getD ""))] else []) ++
  (if optTruthy e.mood then [("mood", YVal.str (e.mood.getD ""))] else []) ++
  [("tags", YVal.list e.tags), ("timestamp", YVal.str e.timestamp),
   ("type", YVal.str e.type)] ++
  (if optTruthy e.weather then [("weather", YVal.str (e.weather.getD ""))] else [])

/-- `JournalManager._format_entry`. -/
def formatEntry (e : JEntry) : String :=
  "---\n" ++ yamlDump (journalFrontmatter e) ++ "---\n\n" ++ e.content ++ "\n\n"

/-- The visual separator appended after each entry: 50 equals signs. -/
def sepLine : String := String.mk (List.replicate 50 '=')

/-- `JournalManager._validate_entry` as a pass/fail check. -/
def journalValidate (e : JEntry) : Bool :=
  validateTimestamp e.timestamp && journalTypes.contains e.type &&
  !(pyStrip e.content).isEmpty

/-- `JournalManager._append_entry`: validate, then append the rendered entry
followed by a newline, the separator line and a blank line. -/
def journalAppendEntry (file : String) (e : JEntry) : Except String String :=
  if journalValidate e then
    .ok (file ++ formatEntry e ++ "\n" ++ sepLine ++ "\n\n")
  else .error "JournalError: invalid entry"

/-- `JournalManager.add_entry`: build the entry with the current timestamp and
append it; returns the timestamp, the new file and the advanced clock. -/
def journalAddEntry (file : String) (clock : Nat) (content : String)
    (entry_type : String := "reflection") (tags : List String := [])
    (mood : Option String := none) (location : Option String := none)
    (weather : Option String := none) : Except String (String × String × Nat) :=
  let ts := mkTimestamp clock
  let e : JEntry :=
    { timestamp := ts, type := entry_type, content := content, tags := tags,
      mood := mood, location := location, weather := weather }
  (journalAppendEntry file e).map (fun f2 => (ts, f2, clock + 1))

/-- Count the leading run of `=` characters. -/
def eqRun : List Char → Nat × List Char
  | '=' :: rest => let (k, r) := eqRun rest; (k + 1, r)
  | l => (0, l)

/-- Locate the first occurrence of the separator pattern
`\n={50,}\n\n` (the `re.split` pattern of `get_all_entries`): returns the text
before the match and the text after it.  The `={50,}` quantifier is greedy and
cannot usefully backtrack (a shorter run leaves `=` where `\n` is required),
so the maximal run is taken and must be followed by two newlines. -/
def findSep : List Char → Option (List Char × List Char)
  | [] => none
  | '\n' :: rest =>
      let (k, rest2) := eqRun rest
      if k ≥ 50 then
        match rest2 with
        | '\n' :: '\n' :: rest3 => some ([], rest3)
        | _ =>
          match findSep rest with
          | some (b, a) => some ('\n' :: b, a)
          | none => none
      else
        match findSep rest with
        | some (b, a) => some ('\n' :: b, a)
        | none => none
  | c :: rest =>
      match findSep rest with
      | some (b, a) => some (c :: b, a)
      | none => none

/-- `re.split(r"\n={50,}\n\n", text)` via repeated `findSep`. -/
def splitSep (fuel : Nat) (cs : List Char) : List (List Char) :=
  match fuel with
  | 0 => [cs]
  | fuel + 1 =>
    match findSep cs with
    | none => [cs]
    | some (before, after) => before :: splitSep fuel after

/-- Consume `\s*\n` greedily (backtracking): the longest whitespace prefix
that ends in a newline; returns the remainder after that newline. -/
def wsNlSplit : List Char → Option (List Char)
  | [] => none
  | c :: rest =>
    if pyIsSpace c then
      match wsNlSplit rest with
      | some r => some r
      | none => if c == '\n' then some rest else none
    else none

/-- The lazy body of the frontmatter pattern `(.*?)\n---\s*\n(.*)` (DOTALL):
the shortest group-1 followed by `\n---`, then greedily `\s*\n`, then the
rest as group 2. -/
def fmBody : List Char → Option (List Char × List Char)
  | [] => none
  | '\n' :: rest =>
      (if hasPrefixCh rest ['-', '-', '-'] then
        match wsNlSplit (rest.drop 3) with
        | some r => some (([] : List Char), r)
        | none => none
       else none)
      |> (fun res =>
        match res with
        | some x => some x
        | none =>
          match fmBody rest with
          | some (g1, g2) => some ('\n' :: g1, g2)
          | none => none)
  | c :: rest =>
      match fmBody rest with
      | some (g1, g2) => some (c :: g1, g2)
      | none => none

/-- `re.match(r"^---\s*\n(.*?)\n---\s*\n(.*)", content, re.DOTALL)`:
the frontmatter text and the body, if the block starts with a frontmatter
fence. -/
def fmMatch (cs : List Char) : Option (List Char × List Char) :=
  match cs with
  | '-' :: '-' :: '-' :: rest =>
    match wsNlSplit rest with
    | some r => fmBody r
    | none => none
  | _ => none

/-- Split a character list on newline characters. -/
def splitLines : List Char → List (List Char)
  | [] => [[]]
  | '\n' :: rest => [] :: splitLines rest
  | c :: rest =>
    match splitLines rest with
    | l :: ls => (c :: l) :: ls
    | [] => [[c]]

/-- Parse one scalar as `yaml.safe_load` reads the scalars this program
writes: `[]` is the empty list, a single-quoted string is unquoted, anything
else is the literal string. -/
def yamlScalar (v : List Char) : YVal :=
  if v == ['[', ']'] then .list []
  else
    match v with
    | c :: rest =>
      if c == apoCh ∧ rest ≠ [] ∧ rest.getLast? = some apoCh then
        .str (String.mk (rest.dropLast))
      else .str (String.mk v)
    | _ => .str (String.mk v)

/-- Split a YAML line at the first colon: key and raw value text. -/
def yamlKeyVal : List Char → Option (List Char × List Char)
  | [] => none
  | ':' :: rest => some ([], rest)
  | c :: rest =>
    match yamlKeyVal rest with
    | some (k, v) => some (c :: k, v)
    | none => none

/-- Parse the lines of a frontmatter mapping (model of `yaml.safe_load` on
the block-style mappings `_format_entry` writes: `key: value` lines, with
block sequences of `- item` lines for non-empty lists).  Fuel-recursive so
the kernel can evaluate it; the caller supplies enough fuel. -/
def yamlLines : Nat → List (List Char) → Option (List (String × YVal))
  | 0, _ => none
  | _, [] => some []
  | fuel + 1, line :: rest =>
    if (pyStripList line).isEmpty then yamlLines fuel rest
    else
      match yamlKeyVal line with
      | none => none
      | some (k, v) =>
        let key := String.mk (pyStripList k)
        let vs := pyStripList v
        if vs.isEmpty then
          -- block sequence: collect the following `- item` lines
          let items := rest.takeWhile (fun l => hasPrefixCh l ['-', ' '])
          let rest2 := rest.drop items.length
          match yamlLines fuel rest2 with
          | some kvs =>
            some ((key, YVal.list (items.map (fun l => String.mk (pyStripList (l.drop 2))))) :: kvs)
          | none => none
        else
          match yamlLines fuel rest with
          | some kvs => some ((key, yamlScalar vs) :: kvs)
          | none => none

/-- `JournalManager._parse_frontmatter`: returns the parsed mapping and the
content; on a failed match or a non-mapping result, an empty mapping and the
whole content. -/
def parseFrontmatter (content : String) : List (String × YVal) × String :=
  match fmMatch content.toList with
  | none => ([], content)
  | some (fmText, body) =>
    match yamlLines (fmText.length + 1) (splitLines fmText) with
    | some kvs => (kvs, String.mk body)
    | none => ([], String.mk body)

/-- One element of the list returned by `JournalManager.get_all_entries`. -/
structure JOut where
  frontmatter : List (String × YVal)
  content : String
  raw : String
  deriving DecidableEq, Repr

/-- Lookup in a frontmatter mapping (`frontmatter.get(key)`). -/
def fmGet (fm : List (String × YVal)) (k : String) : Option YVal :=
  (fm.find? (fun kv => kv.1 == k)).map (fun kv => kv.2)

/-- `JournalManager.get_all_entries`: strip the file, split it on the
separator pattern, and keep the blocks with a parseable, non-empty
frontmatter. -/
def journalGetAllEntries (file : String) : List JOut :=
  let stripped := (pyStrip file).toList
  let blocks := splitSep (stripped.length + 1) stripped
  blocks.filterMap (fun b =>
    let bs := pyStripList b
    if bs.isEmpty then none
    else
      let (fm, body) := parseFrontmatter (String.mk bs)
      if fm.isEmpty then none
      else some { frontmatter := fm, content := pyStrip body, raw := String.mk bs })

/-- The tag list of a frontmatter (`frontmatter.get("tags", [])`, read as a
list; the shapes this program writes make it one). -/
def fmTags (fm : List (String × YVal)) : List String :=
  match fmGet fm "tags" with
  | some (.list ts) => ts
  | _ => []

/-- The timestamp string of a frontmatter (`frontmatter.get("timestamp", "")`). -/
def fmTimestamp (fm : List (String × YVal)) : String :=
  match fmGet fm "timestamp" with
  | some (.str v) => v
  | _ => ""

/-- `JournalManager.search_entries`: conjunctive filters (type, all-tags
subset, date range on the first ten timestamp characters, case-insensitive
substring query over content plus joined tags). -/
def journalSearchEntries (file : String) (query : Option String := none)
    (entry_type : Option String := none) (tags : Option (List String) := none)
    (date_from : Option String := none) (date_to : Option String := none) :
    List JOut :=
  (journalGetAllEntries file).filter (fun e =>
    (match entry_type with
     | some t =>
       if t.isEmpty then true
       else fmGet e.frontmatter "type" == some (YVal.str t)
     | none => true) &&
    (match tags with
     | some qts =>
       if qts.isEmpty then true
       else qts.all (fun t => (fmTags e.frontmatter).contains t)
     | none => true) &&
    (match date_from, date_to with
     | none, none => true
     | df, dt =>
       let entry_date := pySliceTo (fmTimestamp e.frontmatter) 10
       (match df with
        | some d => if d.isEmpty then true else decide ¬(entry_date < pySliceTo d 10)
        | none => true) &&
       (match dt with
        | some d => if d.isEmpty then true else decide ¬(pySliceTo d 10 < entry_date)
        | none => true)) &&
    (match query with
     | some q =>
       if q.isEmpty then true
       else
         strContains (pyLower e.content ++ " " ++ pyLower (pyJoin " " (fmTags e.frontmatter)))
           (pyLower q)
     | none => true))

/-! ### JSON values and `json.loads` (used by `proposals/__init__.py`) -/

/-- A JSON value.  Object keys keep their textual order; a repeated key is
looked up last-occurrence-first (a Python dict keeps the last assignment). -/
inductive JVal where
  | null
  | bool (b : Bool)
  | num (q : Rat)
  | str (s : String)
  | arr (xs : List JVal)
  | obj (kvs : List (String × JVal))

/-- Dictionary lookup, last assignment wins (`parsed.get(k)`). -/
def jGet (kvs : List (String × JVal)) (k : String) : Option JVal :=
  (kvs.reverse.find? (fun kv => kv.1 == k)).map (fun kv => kv.2)

/-- JSON insignificant whitespace. -/
def jSkipWs (cs : List Char) : List Char :=
  cs.dropWhile (fun c => [' ', '\t', '\n', '\r'].contains c)

/-- Value of a hexadecimal digit. -/
def hexDigitVal (c : Char) : Option Nat :=
  if '0' ≤ c ∧ c ≤ '9' then some (c.toNat - 48)
  else if 'a' ≤ c ∧ c ≤ 'f' then some (c.toNat - 87)
  else if 'A' ≤ c ∧ c ≤ 'F' then some (c.toNat - 55)
  else none

/-- The natural number denoted by a digit list (most significant first). -/
def digitsVal (l : List Char) : Nat :=
  l.foldl (fun acc c => acc * 10 + (c.toNat - 48)) 0

/-- Parse the body of a JSON string literal (after the opening quote).
Strict mode: raw control characters are rejected; `\uXXXX` surrogate pairing
is not modelled (no claim touches it). -/
def jParseStrBody : Nat → List Char → Option (String × List Char)
  | 0, _ => none
  | _, [] => none
  | fuel + 1, c :: rest =>
    if c == '"' then some ("", rest)
    else if c == '\\' then
      match rest with
      | [] => none
      | e :: rest2 =>
        let dec : Option (Char × List Char) :=
          if e == '"' then some ('"', rest2)
          else if e == '\\' then some ('\\', rest2)
          else if e == '/' then some ('/', rest2)
          else if e == 'n' then some ('\n', rest2)
          else if e == 't' then some ('\t', rest2)
          else if e == 'r' then some ('\r', rest2)
          else if e == 'b' then some ('\x08', rest2)
          else if e == 'f' then some ('\x0c', rest2)
          else if e == 'u' then
            match rest2 with
            | h1 :: h2 :: h3 :: h4 :: rest3 =>
              match hexDigitVal h1, hexDigitVal h2, hexDigitVal h3, hexDigitVal h4 with
              | some a, some b, some c2, some d =>
                some (Char.ofNat (((a * 16 + b) * 16 + c2) * 16 + d), rest3)
              | _, _, _, _ => none
            | _ => none
          else none
        match dec with
        | some (ch, rest3) =>
          match jParseStrBody fuel rest3 with
          | some (s, rem) => some (String.mk (ch :: s.toList), rem)
          | none => none
        | none => none
    else if c.toNat < 32 then none
    else
      match jParseStrBody fuel rest with
      | some (s, rem) => some (String.mk (c :: s.toList), rem)
      | none => none

/-- Parse a JSON number (integer part with the no-leading-zero rule, optional
fraction, optional exponent). -/
def jParseNum (cs : List Char) : Option (Rat × List Char) :=
  -- JSON allows only a minus sign on the mantissa
  let neg := cs.headD ' ' == '-'
  let cs1 := if neg then cs.tail else cs
  let intDigits := cs1.takeWhile Char.isDigit
  let cs2 := cs1.drop intDigits.length
  if intDigits.isEmpty then none
  else if intDigits.length > 1 ∧ intDigits.headD '0' = '0' then none
  else
    let (fracDigits, cs3) :=
      match cs2 with
      | '.' :: r =>
        let f := r.takeWhile Char.isDigit
        (f, r.drop f.length)
      | _ => ([], cs2)
    if (match cs2 with | '.' :: _ => fracDigits.isEmpty | _ => false) then none
    else
      let expPart : Option (Int × List Char) :=
        match cs3 with
        | e :: r =>
          if e == 'e' || e == 'E' then
            let (eneg, r2) := signSplit r
            let eds := r2.takeWhile Char.isDigit
            if eds.isEmpty then none
            else some ((if eneg then -(digitsVal eds : Int) else (digitsVal eds : Int)),
                       r2.drop eds.length)
          else some (0, cs3)
        | [] => some (0, cs3)
      match expPart with
      | none => none
      | some (ex, rem) =>
        let base : Rat :=
          (digitsVal intDigits : Rat) +
            (digitsVal fracDigits : Rat) / ((10 : Rat) ^ fracDigits.length)
        let scaled : Rat :=
          if 0 ≤ ex then base * (10 : Rat) ^ ex.toNat
          else base / ((10 : Rat) ^ (-ex).toNat)
        some ((if neg then -scaled else scaled), rem)

mutual

/-- Parse one JSON value (model of the `json.loads` grammar). -/
def jParse : Nat → List Char → Option (JVal × List Char)
  | 0, _ => none
  | fuel + 1, cs =>
    match jSkipWs cs with
    | [] => none
    | 'n' :: 'u' :: 'l' :: 'l' :: rest => some (.null, rest)
    | 't' :: 'r' :: 'u' :: 'e' :: rest => some (.bool true, rest)
    | 'f' :: 'a' :: 'l' :: 's' :: 'e' :: rest => some (.bool false, rest)
    | '"' :: rest =>
      match jParseStrBody (rest.length + 1) rest with
      | some (s, rem) => some (.str s, rem)
      | none => none
    | '[' :: rest =>
      (match jSkipWs rest with
       | ']' :: rem => some (.arr [], rem)
       | _ =>
         match jParseArrItems fuel rest with
         | some (xs, rem) => some (.arr xs, rem)
         | none => none)
    | '{' :: rest =>
      (match jSkipWs rest with
       | '}' :: rem => some (.obj [], rem)
       | _ =>
         match jParseObjItems fuel rest with
         | some (kvs, rem) => some (.obj kvs, rem)
         | none => none)
    | other =>
      match jParseNum other with
      | some (q, rem) => some (.num q, rem)
      | none => none

/-- Parse the comma-separated items of a non-empty JSON array. -/
def jParseArrItems : Nat → List Char → Option (List JVal × List Char)
  | 0, _ => none
  | fuel + 1, cs =>
    match jParse fuel cs with
    | none => none
    | some (v, rem) =>
      match jSkipWs rem with
      | ',' :: rest =>
        match jParseArrItems fuel rest with
        | some (xs, rem2) => some (v :: xs, rem2)
        | none => none
      | ']' :: rest => some ([v], rest)
      | _ => none

/-- Parse the comma-separated members of a non-empty JSON object. -/
def jParseObjItems : Nat → List Char → Option (List (String × JVal) × List Char)
  | 0, _ => none
  | fuel + 1, cs =>
    match jSkipWs cs with
    | '"' :: rest =>
      match jParseStrBody (rest.length + 1) rest with
      | none => none
      | some (k, rem) =>
        match jSkipWs rem with
        | ':' :: rest2 =>
          match jParse fuel rest2 with
          | none => none
          | some (v, rem2) =>
            match jSkipWs rem2 with
            | ',' :: rest3 =>
              match jParseObjItems fuel rest3 with
              | some (kvs, rem3) => some ((k, v) :: kvs, rem3)
              | none => none
            | '}' :: rest3 => some ([(k, v)], rest3)
            | _ => none
        | _ => none
    | _ => none

end

/-- `json.loads`: parse one value and require only whitespace after it.
`None` models `json.JSONDecodeError`.  (The non-standard `NaN`/`Infinity`
extensions are not modelled; no claim touches them.) -/
def jsonLoads (s : String) : Option JVal :=
  match jParse (s.toList.length + 1) s.toList with
  | some (v, rest) => if (jSkipWs rest).isEmpty then some v else none
  | none => none

/-! ### The proposal engine (`proposals/__init__.py`) -/

/-- A Python exception surfacing out of `parse_llm_output`. -/
inductive PyErr where
  | proposalError (msg : String)
  | attributeError (msg : String)
  | valueError (msg : String)
  | typeError (msg : String)
  deriving DecidableEq, Repr

/-- The `TelosProposal` dataclass (with `__post_init__` making `tags` a list). -/
structure TelosProposal where
  action : String
  content : Option String := none
  goal_id : Option String := none
  task_id : Option String := none
  new_status : Option String := none
  tags : List String := []
  priority : Option String := none
  due_date : Option String := none
  deriving DecidableEq, Repr

/-- The `JournalProposal` dataclass. -/
structure JournalProposal where
  action : String
  content : String := ""
  entry_type : String := "reflection"
  tags : List String := []
  mood : Option String := none
  location : Option String := none
  weather : Option String := none
  deriving DecidableEq, Repr

/-- The `ChangeProposal` dataclass. -/
structure ChangeProposal where
  proposal_id : String
  timestamp : String
  talaos_proposals : List TelosProposal
  journal_proposals : List JournalProposal
  reasoning : String
  confidence_score : Rat
  raw_llm_output : String
  deriving DecidableEq, Repr

/-- The valid Telos proposal actions. -/
def telosActions : List String := ["add_goal", "add_task", "update_status"]

/-- First check of `_validate_talaos_proposal`: unknown action. -/
def tpBadAction (tp : TelosProposal) : Bool :=
  !(telosActions.contains tp.action)

/-- Second check: an add action with falsy or blank content
(`not proposal.content or not proposal.content.strip()`). -/
def tpBadContent (tp : TelosProposal) : Bool :=
  (tp.action == "add_goal" || tp.action == "add_task") &&
    (match tp.content with
     | none => true
     | some c => (pyStrip c).isEmpty)

/-- Third check: `update_status` with neither a truthy goal id nor a truthy
task id. -/
def tpMissingTarget (tp : TelosProposal) : Bool :=
  tp.action == "update_status" && !optTruthy tp.goal_id && !optTruthy tp.task_id

/-- Fourth check: `update_status` with a falsy new status. -/
def tpMissingStatus (tp : TelosProposal) : Bool :=
  tp.action == "update_status" && !optTruthy tp.new_status

/-- Fifth check: `update_status` whose new status is not in the status set
inferred from the target kind (`if proposal.goal_id:`). -/
def tpBadStatus (tp : TelosProposal) : Bool :=
  tp.action == "update_status" &&
    !((if optTruthy tp.goal_id then goalStatuses else taskStatuses).contains
        (tp.new_status.getD ""))

/-- Sixth check: a truthy priority outside the valid set. -/
def tpBadPriority (tp : TelosProposal) : Bool :=
  optTruthy tp.priority &&
    !(["low", "medium", "high"].contains (tp.priority.getD ""))

/-- `ProposalEngine._validate_talaos_proposal`, checks in source order. -/
def validateTalaosProposal (tp : TelosProposal) : Except String Unit :=
  if tpBadAction tp then
    .error ("Invalid Talaos action: " ++ tp.action)
  else if tpBadContent tp then
    .error "Content required for add operations"
  else if tpMissingTarget tp then
    .error "Goal or task ID required for status updates"
  else if tpMissingStatus tp then
    .error "New status required for status updates"
  else if tpBadStatus tp then
    .error ("Invalid status: " ++ pyShowOptStr tp.new_status)
  else if tpBadPriority tp then
    .error ("Invalid priority: " ++ pyShowOptStr tp.priority)
  else .ok ()

/-- First check of `_validate_journal_proposal`: unknown action. -/
def jpBadAction (jp : JournalProposal) : Bool :=
  !(["add_entry"].contains jp.action)

/-- Second check: falsy or blank content. -/
def jpBadContent (jp : JournalProposal) : Bool :=
  (pyStrip jp.content).isEmpty

/-- Third check: invalid entry type. -/
def jpBadType (jp : JournalProposal) : Bool :=
  !(journalTypes.contains jp.entry_type)

/-- `ProposalEngine._validate_journal_proposal`. -/
def validateJournalProposal (jp : JournalProposal) : Except String Unit :=
  if jpBadAction jp then
    .error ("Invalid Journal action: " ++ jp.action)
  else if jpBadContent jp then
    .error "Content required for journal entries"
  else if jpBadType jp then
    .error ("Invalid entry type: " ++ jp.entry_type)
  else .ok ()

/-- The per-item Telos validation loop (first failure aborts, like a raise). -/
def validateTalaosList : List TelosProposal → Except String Unit
  | [] => .ok ()
  | tp :: rest =>
    match validateTalaosProposal tp with
    | .ok _ => validateTalaosList rest
    | .error e => .error e

/-- The per-item Journal validation loop. -/
def validateJournalList : List JournalProposal → Except String Unit
  | [] => .ok ()
  | jp :: rest =>
    match validateJournalProposal jp with
    | .ok _ => validateJournalList rest
    | .error e => .error e

/-- The final defensive action check over Telos items. -/
def checkTalaosActions : List TelosProposal → Except String Unit
  | [] => .ok ()
  | tp :: rest =>
    if telosActions.contains tp.action then checkTalaosActions rest
    else .error ("Unsupported Talaos action: " ++ tp.action)

/-- The final defensive action check over Journal items. -/
def checkJournalActions : List JournalProposal → Except String Unit
  | [] => .ok ()
  | jp :: rest =>
    if jp.action == "add_entry" then checkJournalActions rest
    else .error ("Unsupported Journal action: " ++ jp.action)

/-- `ProposalEngine._validate_proposal`: confidence bounds, per-item checks,
the hard total-count ceiling of 5, then the defensive action re-checks. -/
def validateProposal (p : ChangeProposal) : Except String Unit :=
  if ¬(0 ≤ p.confidence_score ∧ p.confidence_score ≤ 1) then
    .error "Invalid confidence score"
  else
    match validateTalaosList p.talaos_proposals with
    | .error e => .error e
    | .ok _ =>
      match validateJournalList p.journal_proposals with
      | .error e => .error e
      | .ok _ =>
        if p.talaos_proposals.length + p.journal_proposals.length > 5 then
          .error "Too many changes proposed"
        else
          match checkTalaosActions p.talaos_proposals with
          | .error e => .error e
          | .ok _ => checkJournalActions p.journal_proposals

/-- Python `float(str)` on the strings that can reach the confidence field:
optional sign, digits with an optional point and exponent (the `inf`/`nan`
spellings are not modelled; no claim touches them). -/
def pyParseFloat (s : String) : Option Rat :=
  let cs := pyStripList s.toList
  let (neg, cs1) := signSplit cs
  let intDigits := cs1.takeWhile Char.isDigit
  let cs2 := cs1.drop intDigits.length
  let (fracDigits, cs3) :=
    match cs2 with
    | '.' :: r =>
      let f := r.takeWhile Char.isDigit
      (f, r.drop f.length)
    | _ => ([], cs2)
  if intDigits.isEmpty ∧ fracDigits.isEmpty then none
  else
    let expPart : Option (Int × List Char) :=
      match cs3 with
      | e :: r =>
        if e == 'e' || e == 'E' then
          let (eneg, r2) := signSplit r
          let eds := r2.takeWhile Char.isDigit
          if eds.isEmpty then none
          else some ((if eneg then -(digitsVal eds : Int) else (digitsVal eds : Int)),
                     r2.drop eds.length)
        else none
      | [] => some (0, cs3)
    match expPart with
    | none => none
    | some (ex, rem) =>
      if !rem.isEmpty then none
      else
        let base : Rat :=
          (digitsVal intDigits : Rat) +
            (digitsVal fracDigits : Rat) / ((10 : Rat) ^ fracDigits.length)
        let scaled : Rat :=
          if 0 ≤ ex then base * (10 : Rat) ^ ex.toNat
          else base / ((10 : Rat) ^ (-ex).toNat)
        some (if neg then -scaled else scaled)

/-- Python `float(x)` on a decoded JSON value: numbers and booleans convert,
numeric strings parse (`ValueError` otherwise), everything else is a
`TypeError`. -/
def floatOfJson : JVal → Except PyErr Rat
  | .num q => .ok q
  | .bool b => .ok (if b then 1 else 0)
  | .str s =>
    match pyParseFloat s with
    | some q => .ok q
    | none => .error (.valueError ("could not convert string to float: " ++ s))
  | .null => .error (.typeError "float argument must be a string or a real number")
  | .arr _ => .error (.typeError "float argument must be a string or a real number")
  | .obj _ => .error (.typeError "float argument must be a string or a real number")

/-- Python `str(x)` of a decoded JSON value, for the `proposal_id` and
`reasoning` fields (composite values abbreviated; they never influence any
claim). -/
def jvalStr : JVal → String
  | .str s => s
  | .num q => if q.den = 1 then toString q.num else toString q
  | .bool true => "True"
  | .bool false => "False"
  | .null => "None"
  | .arr _ => "[list]"
  | .obj _ => "[dict]"

/-- Read an optional string field for `TelosProposal(**tp_data)`.  `none`
models a construction that the item loop skips.  (A value of unexpected JSON
type is modelled as a skipped item; CPython would accept it at construction
time and fail later, a corner no claim reaches.) -/
def jStrField (kvs : List (String × JVal)) (k : String) : Option (Option String)
  :=
  match jGet kvs k with
  | none => some none
  | some .null => some none
  | some (.str s) => some (some s)
  | some _ => none

/-- Read the `tags` field (absent or `null` becomes `[]` via `__post_init__`). -/
def jTagsField (kvs : List (String × JVal)) : Option (List String) :=
  match jGet kvs "tags" with
  | none => some []
  | some .null => some []
  | some (.arr xs) =>
    xs.foldr (fun x acc =>
      match x, acc with
      | .str s, some l => some (s :: l)
      | _, _ => none) (some [])
  | some _ => none

/-- The keyword set `TelosProposal(**tp_data)` accepts. -/
def telosProposalKeys : List String :=
  ["action", "content", "goal_id", "task_id", "new_status", "tags", "priority", "due_date"]

/-- `TelosProposal(**tp_data)` on a decoded JSON item: an unexpected key or a
missing `action` is a `TypeError`, which the item loop catches and skips. -/
def jsonToTelosProposal : JVal → Option TelosProposal
  | .obj kvs =>
    if !(kvs.all (fun kv => telosProposalKeys.contains kv.1)) then none
    else
      match jGet kvs "action" with
      | some (.str a) =>
        match jStrField kvs "content", jStrField kvs "goal_id",
              jStrField kvs "task_id", jStrField kvs "new_status",
              jTagsField kvs, jStrField kvs "priority", jStrField kvs "due_date" with
        | some content, some goal_id, some task_id, some new_status,
          some tags, some priority, some due_date =>
          some { action := a, content := content, goal_id := goal_id,
                 task_id := task_id, new_status := new_status, tags := tags,
                 priority := priority, due_date := due_date }
        | _, _, _, _, _, _, _ => none
      | _ => none
  | _ => none

/-- The keyword set `JournalProposal(**jp_data)` accepts. -/
def journalProposalKeys : List String :=
  ["action", "content", "entry_type", "tags", "mood", "location", "weather"]

/-- `JournalProposal(**jp_data)` on a decoded JSON item. -/
def jsonToJournalProposal : JVal → Option JournalProposal
  | .obj kvs =>
    if !(kvs.all (fun kv => journalProposalKeys.contains kv.1)) then none
    else
      match jGet kvs "action" with
      | some (.str a) =>
        match (match jGet kvs "content" with
               | none => some ""
               | some (.str s) => some s
               | some _ => none),
              (match jGet kvs "entry_type" with
               | none => some "reflection"
               | some (.str s) => some s
               | some _ => none),
              jTagsField kvs, jStrField kvs "mood", jStrField kvs "location",
              jStrField kvs "weather" with
        | some content, some entry_type, some tags, some mood, some location,
          some weather =>
          some { action := a, content := content, entry_type := entry_type,
                 tags := tags, mood := mood, location := location,
                 weather := weather }
        | _, _, _, _, _, _ => none
      | _ => none
  | _ => none

/-- `for item in parsed.get(key, [])`: lists iterate; strings and dicts
iterate over characters/keys, every one of which the loop then skips
(`**item` raises a `TypeError` that the loop catches); the remaining scalars
are not iterable, so the `for` statement itself raises. -/
def jsonIterItems (v : Option JVal) : Except PyErr (List JVal) :=
  match v with
  | none => .ok []
  | some (.arr xs) => .ok xs
  | some (.str _) => .ok []
  | some (.obj _) => .ok []
  | some _ => .error (.typeError "object is not iterable")

/-- `ProposalEngine._parse_json_proposal`.  On a non-object `parsed`, the
`parsed.get(...)` attribute access raises (uncaught by the caller). -/
def parseJsonProposal (v : JVal) (raw : String) (clock : Nat) :
    Except PyErr ChangeProposal :=
  match v with
  | .obj kvs =>
    let pid :=
      match jGet kvs "proposal_id" with
      | some x => jvalStr x
      | none => "proposal_" ++ mkTimestamp clock
    let reasoning :=
      match jGet kvs "reasoning" with
      | some x => jvalStr x
      | none => "No reasoning provided"
    match floatOfJson ((jGet kvs "confidence").getD (.num ((1 : Rat) / 2))) with
    | .error e => .error e
    | .ok f =>
      let conf := min (max f 0) 1
      match jsonIterItems (jGet kvs "talaos_proposals") with
      | .error e => .error e
      | .ok txs =>
        match jsonIterItems (jGet kvs "journal_proposals") with
        | .error e => .error e
        | .ok jxs =>
          let p : ChangeProposal :=
            { proposal_id := pid, timestamp := mkTimestamp (clock + 1),
              talaos_proposals := txs.filterMap jsonToTelosProposal,
              journal_proposals := jxs.filterMap jsonToJournalProposal,
              reasoning := reasoning, confidence_score := conf,
              raw_llm_output := raw }
          match validateProposal p with
          | .ok _ => .ok p
          | .error e => .error (.proposalError e)
  | _ => .error (.attributeError "object has no attribute get")

/-! ### The fenced-block pattern

`re.search(r"```json\s*\n(.*?)\n\s*```", output, re.DOTALL)`, one function
per regex piece, each in the preference order of the backtracking engine. -/

/-- All remainders after a newline within the leading whitespace run, the
deepest cut first (the preference order of greedy `\s*\n`). -/
def wsNlCuts : List Char → List (List Char)
  | [] => []
  | c :: rest =>
    if pyIsSpace c then
      wsNlCuts rest ++ (if c == '\n' then [rest] else [])
    else []

/-- The lazy tail `(.*?)\n\s*` followed by three backticks: the shortest
group-1 whose following newline leads, over whitespace, to a closing fence. -/
def fencedBody : List Char → Option (List Char)
  | [] => none
  | '\n' :: rest =>
    if hasPrefixCh (rest.dropWhile pyIsSpace) "```".toList then some []
    else
      match fencedBody rest with
      | some g => some ('\n' :: g)
      | none => none
  | c :: rest =>
    match fencedBody rest with
    | some g => some (c :: g)
    | none => none

/-- Match the pattern right after the literal fence tag. -/
def fencedAfterTag (cs : List Char) : Option (List Char) :=
  (wsNlCuts cs).findSome? fencedBody

/-- Scan for the first position where the whole fenced pattern matches. -/
def searchFenced : List Char → Option (List Char)
  | [] => none
  | l@(_ :: rest) =>
    if hasPrefixCh l "```json".toList then
      match fencedAfterTag (l.drop 7) with
      | some g => some g
      | none => searchFenced rest
    else searchFenced rest

/-- The fenced-block extraction of `parse_llm_output`: the captured group, if
the search succeeds. -/
def extractFencedJson (s : String) : Option String :=
  (searchFenced s.toList).map String.mk

/-! ### The free-text fallback patterns

`_parse_text_proposal` and `_extract_reasoning` use `re.findall` with
`re.IGNORECASE`; each pattern is a keyword alternation followed by dot-stars
and a capture.  In every alternation at most one keyword can match at a
given position, or (for `suggest`/`suggesting`) a longer alternative can
never succeed where the shorter one failed, so the first matching keyword
commits. -/

/-- Case-insensitive prefix test. -/
def hasPrefixCI : List Char → List Char → Bool
  | _, [] => true
  | [], _ :: _ => false
  | c :: cs, p :: ps => (c.toLower == p.toLower) && hasPrefixCI cs ps

/-- Match one of the alternation keywords at this position (first match
commits); returns the remainder. -/
def matchKwCI (kws : List String) (cs : List Char) : Option (List Char) :=
  kws.findSome? (fun kw =>
    if hasPrefixCI cs kw.toList then some (cs.drop kw.toList.length) else none)

/-- How many characters `.` (no DOTALL) may consume from here: up to the next
newline. -/
def dotSpan (cs : List Char) : Nat :=
  (cs.takeWhile (fun c => c != '\n')).length

/-- Is this character one of the quote class `["\']`? -/
def isQuoteCh (c : Char) : Bool := c == '"' || c == apoCh

/-- The tail `.*?["\']([^"\']+)["\']`: lazily skip (never over a newline),
then an opening quote, a maximal non-empty run of non-quotes (greedy `+`
cannot usefully backtrack: any shorter run still ends on a non-quote), and a
closing quote of either kind.  Returns the capture and the remainder after
the match. -/
def lazyQuoteCap : List Char → Option (List Char × List Char)
  | [] => none
  | c :: rest =>
    let tryHere : Option (List Char × List Char) :=
      if isQuoteCh c then
        let run := rest.takeWhile (fun x => !isQuoteCh x)
        match rest.drop run.length with
        | q :: rem2 =>
          if run.isEmpty then none
          else if isQuoteCh q then some (run, rem2) else none
        | [] => none
      else none
    match tryHere with
    | some x => some x
    | none => if c == '\n' then none else lazyQuoteCap rest

/-- Greedy `.*` before `(?:goal|task)` then the quoted capture: try the
longest same-line skip first. -/
def goalTaskFrom (rest1 : List Char) : Nat → Option (List Char × List Char)
  | 0 => (matchKwCI ["goal", "task"] rest1).bind lazyQuoteCap
  | k + 1 =>
    match (matchKwCI ["goal", "task"] (rest1.drop (k + 1))).bind lazyQuoteCap with
    | some r => some r
    | none => goalTaskFrom rest1 k

/-- Match `(?:suggest|add|create).*(?:goal|task).*?["\']([^"\']+)["\']` at
this position. -/
def matchGoalAt (cs : List Char) : Option (List Char × List Char) :=
  match matchKwCI ["suggest", "add", "create"] cs with
  | none => none
  | some rest1 => goalTaskFrom rest1 (dotSpan rest1)

/-- `re.findall` for the goal/task pattern: leftmost matches, resuming after
each match end. -/
def findAllGoalGo : Nat → List Char → List String
  | 0, _ => []
  | _, [] => []
  | fuel + 1, cs@(_ :: rest) =>
    match matchGoalAt cs with
    | some (cap, rem) => String.mk cap :: findAllGoalGo fuel rem
    | none => findAllGoalGo fuel rest

/-- The goal/task suggestion matches of `_parse_text_proposal`. -/
def findAllGoal (s : String) : List String :=
  findAllGoalGo (s.toList.length + 1) s.toList

/-- Match `(?:reflect|journal|note|remember).*?["\']([^"\']+)["\']`. -/
def matchReflAt (cs : List Char) : Option (List Char × List Char) :=
  (matchKwCI ["reflect", "journal", "note", "remember"] cs).bind lazyQuoteCap

/-- `re.findall` for the reflection pattern. -/
def findAllReflGo : Nat → List Char → List String
  | 0, _ => []
  | _, [] => []
  | fuel + 1, cs@(_ :: rest) =>
    match matchReflAt cs with
    | some (cap, rem) => String.mk cap :: findAllReflGo fuel rem
    | none => findAllReflGo fuel rest

/-- The reflection suggestion matches of `_parse_text_proposal`. -/
def findAllRefl (s : String) : List String :=
  findAllReflGo (s.toList.length + 1) s.toList

/-- Is this character one of the sentence-ending class `[.!?]`? -/
def isPunctCh (c : Char) : Bool := c == '.' || c == '!' || c == '?'

/-- The tail `.*?([^.!?]+[.!?])` of the reasoning patterns: lazily skip
(same line), then a maximal non-empty run of non-punctuation (which may
cross newlines) closed by one punctuation character; the capture includes
that character. -/
def lazyPunctCap : List Char → Option (List Char × List Char)
  | [] => none
  | c :: rest =>
    let run := (c :: rest).takeWhile (fun x => !isPunctCh x)
    let tryHere : Option (List Char × List Char) :=
      if run.isEmpty then none
      else
        match (c :: rest).drop run.length with
        | p :: rem2 => if isPunctCh p then some (run ++ [p], rem2) else none
        | [] => none
    match tryHere with
    | some x => some x
    | none => if c == '\n' then none else lazyPunctCap rest

/-- The first capture of a reasoning pattern (`re.findall(...)[0]`). -/
def findCapGo (kws : List String) : List Char → Option String
  | [] => none
  | cs@(_ :: rest) =>
    match (matchKwCI kws cs).bind lazyPunctCap with
    | some (cap, _) => some (String.mk cap)
    | none => findCapGo kws rest

/-- `re.split(r"[.!?]+", text)`. -/
def splitPunctGo : Nat → List Char → List (List Char)
  | 0, cs => [cs]
  | fuel + 1, cs =>
    match cs with
    | [] => [[]]
    | c :: rest =>
      if isPunctCh c then
        let rest2 := rest.dropWhile isPunctCh
        [] :: splitPunctGo fuel rest2
      else
        match splitPunctGo fuel rest with
        | l :: ls => (c :: l) :: ls
        | [] => [[c]]

/-- `ProposalEngine._extract_reasoning`: the three patterns in order, then
the first-sentence fallback. -/
def extractReasoning (s : String) : String :=
  match findCapGo ["because", "since", "reason"] s.toList with
  | some m => pyStrip m
  | none =>
    match findCapGo ["suggest", "suggesting"] s.toList with
    | some m => pyStrip m
    | none =>
      match findCapGo ["think", "believe", "recommend"] s.toList with
      | some m => pyStrip m
      | none =>
        let stripped := (pyStrip s).toList
        match splitPunctGo (stripped.length + 1) stripped with
        | st :: _ => pyStrip (String.mk st)
        | [] => "No explicit reasoning provided"

/-- The `ChangeProposal` that `_parse_text_proposal` constructs: at most two
goal/task items (all tasks when the lowercased text mentions "task", all
goals otherwise), at most one reflection item, and a fixed confidence of
0.3. -/
def textProposal (text_output : String) (clock : Nat) : ChangeProposal :=
  let goal_matches := (findAllGoal text_output).take 2
  let talaos_proposals := goal_matches.map (fun m =>
    if strContains (pyLower text_output) "task" then
      ({ action := "add_task", content := some (pyStrip m),
         tags := ["suggested"] } : TelosProposal)
    else
      ({ action := "add_goal", content := some (pyStrip m),
         tags := ["suggested"] } : TelosProposal))
  let reflection_matches := (findAllRefl text_output).take 1
  let journal_proposals := reflection_matches.map (fun m =>
    ({ action := "add_entry", content := pyStrip m, entry_type := "reflection",
       tags := ["suggested"] } : JournalProposal))
  { proposal_id := "text_proposal_" ++ mkTimestamp clock,
    timestamp := mkTimestamp (clock + 1),
    talaos_proposals := talaos_proposals,
    journal_proposals := journal_proposals,
    reasoning := extractReasoning text_output,
    confidence_score := (3 : Rat) / 10,
    raw_llm_output := text_output }

/-- `ProposalEngine._parse_text_proposal`: build the proposal, validate it,
return it (a validation failure surfaces as `ProposalError`). -/
def parseTextProposal (text_output user_query : String) (clock : Nat) :
    Except PyErr ChangeProposal :=
  match validateProposal (textProposal text_output clock) with
  | .ok _ => .ok (textProposal text_output clock)
  | .error e => .error (.proposalError e)

/-- `ProposalEngine.parse_llm_output`: fenced block first (a decode failure
falls through), then the whole output as JSON, then the text fallback. -/
def parseLlmOutput (llm_output user_query : String) (clock : Nat) :
    Except PyErr ChangeProposal :=
  match extractFencedJson llm_output with
  | some fenced =>
    (match jsonLoads (pyStrip fenced) with
     | some v => parseJsonProposal v llm_output clock
     | none =>
       match jsonLoads llm_output with
       | some v => parseJsonProposal v llm_output clock
       | none => parseTextProposal llm_output user_query clock)
  | none =>
    match jsonLoads llm_output with
    | some v => parseJsonProposal v llm_output clock
    | none => parseTextProposal llm_output user_query clock

/-! ### The mutation engine (`changes/__init__.py`)

The three persisted stores and the clock are bundled into a `World`.  A
`ChangeRecord` models the per-item dictionary built by
`_apply_talaos_change` / `_apply_journal_change`. -/

/-- A heterogeneous value inside a change record's `details` dictionary. -/
inductive DVal where
  | str (v : String)
  | optStr (v : Option String)
  | strList (v : List String)
  deriving DecidableEq, Repr

/-- One audit record (the dictionary shape of `_apply_*_change`). -/
structure ChangeRecord where
  change_id : String
  timestamp : String
  proposal_id : String
  change_type : String
  action : String
  target_id : Option String := none
  description : String := ""
  success : Bool := false
  details : List (String × DVal) := []
  error : Option String := none
  deriving DecidableEq, Repr

/-- The mutable state the mutation engine touches: the two stores, the audit
log (`changes.jsonl` as a list of records) and the clock. -/
structure World where
  telos : List TEntry := []
  journal : String := ""
  changes : List ChangeRecord := []
  clock : Nat := 0
  deriving Repr

/-- `MutationEngine._apply_talaos_change`: total — every exception is caught
and recorded in the returned record. -/
def applyTalaosChange (w : World) (tp : TelosProposal) (proposal_id : String)
    (change_number : Nat) : ChangeRecord × World :=
  let change_id := proposal_id ++ "_talaos_" ++ toString change_number
  let base : ChangeRecord :=
    { change_id := change_id, timestamp := mkTimestamp w.clock,
      proposal_id := proposal_id, change_type := "talaos",
      action := tp.action }
  let w := { w with clock := w.clock + 1 }
  if tp.action == "add_goal" then
    match addGoal w.telos w.clock (tp.content.getD "") tp.tags
        (if optTruthy tp.priority then tp.priority.getD "" else "medium")
        tp.due_date with
    | .ok (goal_id, st2, c2) =>
      ({ base with target_id := some goal_id,
                   description := "Added goal: " ++ pyShowOptStr tp.content,
                   success := true,
                   details := [("goal_id", .str goal_id),
                               ("content", .optStr tp.content),
                               ("tags", .strList tp.tags)] },
       { w with telos := st2, clock := c2 })
    | .error e => ({ base with success := false, error := some e }, w)
  else if tp.action == "add_task" then
    match addTask w.telos w.clock (tp.content.getD "") tp.goal_id tp.tags
        (if optTruthy tp.priority then tp.priority.getD "" else "medium")
        tp.due_date with
    | .ok (task_id, st2, c2) =>
      ({ base with target_id := some task_id,
                   description := "Added task: " ++ pyShowOptStr tp.content,
                   success := true,
                   details := [("task_id", .str task_id),
                               ("content", .optStr tp.content),
                               ("parent_goal", .optStr tp.goal_id)] },
       { w with telos := st2, clock := c2 })
    | .error e => ({ base with success := false, error := some e }, w)
  else if tp.action == "update_status" then
    let target_id := pyOrOpt tp.goal_id tp.task_id
    if optTruthy target_id && optTruthy tp.new_status then
      match updateStatus w.telos w.clock (target_id.getD "")
          (tp.new_status.getD "") with
      | .ok (found, st2, c2) =>
        ({ base with target_id := target_id,
                     description := "Updated status to " ++ pyShowOptStr tp.new_status,
                     success := found,
                     details := [("target_id", .optStr target_id),
                                 ("new_status", .optStr tp.new_status)] },
         { w with telos := st2, clock := c2 })
      | .error e => ({ base with success := false, error := some e }, w)
    else
      ({ base with success := false, error := some "Missing target_id or new_status" }, w)
  else (base, w)

/-- `MutationEngine._apply_journal_change`: total, exceptions recorded. -/
def applyJournalChange (w : World) (jp : JournalProposal) (proposal_id : String)
    (change_number : Nat) : ChangeRecord × World :=
  let change_id := proposal_id ++ "_journal_" ++ toString change_number
  let base : ChangeRecord :=
    { change_id := change_id, timestamp := mkTimestamp w.clock,
      proposal_id := proposal_id, change_type := "journal",
      action := jp.action }
  let w := { w with clock := w.clock + 1 }
  if jp.action == "add_entry" then
    match journalAddEntry w.journal w.clock jp.content jp.entry_type jp.tags
        jp.mood jp.location jp.weather with
    | .ok (ts, f2, c2) =>
      ({ base with target_id := some ts,
                   description := "Added " ++ jp.entry_type ++ " entry",
                   success := true,
                   details := [("timestamp", .str ts),
                               ("type", .str jp.entry_type),
                               ("content_preview", .str (pySliceTo jp.content 50 ++ "...")),
                               ("tags", .strList jp.tags)] },
       { w with journal := f2, clock := c2 })
    | .error e => ({ base with success := false, error := some e }, w)
  else (base, w)

/-- The Telos half of the application loop, threading the world and the
change counter and collecting the records in order. -/
def applyTalaosList (w : World) (pid : String) (counter : Nat) :
    List TelosProposal → List ChangeRecord × World × Nat
  | [] => ([], w, counter)
  | tp :: rest =>
    let (r, w2) := applyTalaosChange w tp pid (counter + 1)
    let (rs, w3, c3) := applyTalaosList w2 pid (counter + 1) rest
    (r :: rs, w3, c3)

/-- The Journal half of the application loop. -/
def applyJournalList (w : World) (pid : String) (counter : Nat) :
    List JournalProposal → List ChangeRecord × World × Nat
  | [] => ([], w, counter)
  | jp :: rest =>
    let (r, w2) := applyJournalChange w jp pid (counter + 1)
    let (rs, w3, c3) := applyJournalList w2 pid (counter + 1) rest
    (r :: rs, w3, c3)

/-- `MutationEngine._create_change_summary`. -/
def createChangeSummary (p : ChangeProposal) : String :=
  let parts :=
    (if p.talaos_proposals.length > 0 then
      [toString p.talaos_proposals.length ++ " goal/task changes"] else []) ++
    (if p.journal_proposals.length > 0 then
      [toString p.journal_proposals.length ++ " journal entries"] else [])
  if parts.isEmpty then "No changes" else pyJoin ", " parts

/-- The result dictionary of `apply_changes_with_audit` (the
`changes_applied` and `audit_records` keys receive the same records in
lockstep). -/
structure ApplyResult where
  proposal_id : String
  applied_at : String
  user_approved : Bool
  changes_applied : List ChangeRecord
  audit_records : List ChangeRecord
  success : Bool
  summary : String
  deriving DecidableEq, Repr

/-- `MutationEngine.apply_changes_with_audit`: refuse without approval
(raising before touching any store), otherwise apply every item in order
(Telos items first), mark overall success false when any item failed, and
append every record to the audit log (`_write_audit_records` attempts the
append for every record; file-system faults, which it logs and swallows, are
outside the modelled semantics, as everywhere in this embedding). -/
def applyChangesWithAudit (w : World) (p : ChangeProposal)
    (user_approval : Bool := true) : Except String (ApplyResult × World) :=
  if !user_approval then
    .error "Changes cannot be applied without user approval"
  else
    let applied_at := mkTimestamp w.clock
    let w1 := { w with clock := w.clock + 1 }
    let (recs1, w2, c1) := applyTalaosList w1 p.proposal_id 0 p.talaos_proposals
    let (recs2, w3, _) := applyJournalList w2 p.proposal_id c1 p.journal_proposals
    let recs := recs1 ++ recs2
    let success := (recs.filter (fun r => !r.success)).isEmpty
    let w4 := { w3 with changes := w3.changes ++ recs }
    .ok ({ proposal_id := p.proposal_id, applied_at := applied_at,
           user_approved := user_approval, changes_applied := recs,
           audit_records := recs, success := success,
           summary := createChangeSummary p }, w4)

/-! ### Context size enforcement (`context/__init__.py`) -/

/-- The literal truncation notice appended by `_enforce_size_limits`. -/
def truncationNotice : String := "\n\n[Context truncated due to size limits]"

/-- `ContextBuilder._enforce_size_limits`: unchanged when within the budget,
otherwise hard-truncate to the budget minus a reserved 100 characters and
append the notice.  `build_context` returns exactly this function applied to
the rendered context text. -/
def enforceSizeLimits (max_context_size : Nat) (context : String) : String :=
  if context.length ≤ max_context_size then context
  else pySliceTo context ((max_context_size : Int) - 100) ++ truncationNotice

/-- The character budget under the default configuration:
`MAX_CONTEXT_SIZE` (4000 tokens) times 4 characters per token. -/
def defaultMaxContextSize : Nat := 4000 * 4

/-! ### Concrete scenario data used by the claim theorems -/

/-- The record `add_goal("Ship it")` appends on an empty store at tick 0. -/
def sampleGoal : TEntry :=
  { id := "goal_" ++ tsDigits 0, timestamp := mkTimestamp 1, type := "goal",
    content := some "Ship it", status := some "active", tags := some [],
    priority := some "medium", due_date := none, parent_goal := none }

/-- The annotation `update_status(sampleGoal.id, "completed")` appends at
tick 2. -/
def sampleAnn : TEntry :=
  statusUpdateRec ("goal_" ++ tsDigits 0) sampleGoal "completed" 2

/-- The record `add_goal("")` appends on an empty store at tick 0. -/
def sampleEmptyGoal : TEntry :=
  { id := "goal_" ++ tsDigits 0, timestamp := mkTimestamp 1, type := "goal",
    content := some "", status := some "active", tags := some [],
    priority := some "medium", due_date := none, parent_goal := none }

/-- The record `add_task("  ")` appends on an empty store at tick 0. -/
def sampleEmptyTask : TEntry :=
  { id := "task_" ++ tsDigits 0, timestamp := mkTimestamp 1, type := "task",
    content := some "  ", status := some "pending", tags := some [],
    priority := some "medium", due_date := none, parent_goal := none }

/-- An approved intent whose first item targets a nonexistent id and whose
other two items are well-formed. -/
def sampleFailProposal : ChangeProposal :=
  { proposal_id := "p1", timestamp := mkTimestamp 0,
    talaos_proposals :=
      [{ action := "update_status", goal_id := some "nope",
         new_status := some "completed" },
       { action := "add_goal", content := some "Write docs" }],
    journal_proposals := [{ action := "add_entry", content := "Reflected" }],
    reasoning := "r", confidence_score := (1 : Rat) / 2,
    raw_llm_output := "raw" }

/-- Applying `sampleFailProposal` on an empty world. -/
def sampleApplyRun : Except String (ApplyResult × World) :=
  applyChangesWithAudit {} sampleFailProposal true

/-- The per-item success flags of the sample application. -/
def sampleApplySuccesses : List Bool :=
  match sampleApplyRun with
  | .ok (res, _) => res.changes_applied.map (fun r => r.success)
  | .error _ => []

/-- The overall success flag of the sample application. -/
def sampleApplyOverall : Option Bool :=
  match sampleApplyRun with
  | .ok (res, _) => some res.success
  | .error _ => none

/-- How many audit records the sample application appended. -/
def sampleApplyAuditCount : Nat :=
  match sampleApplyRun with
  | .ok (_, w2) => w2.changes.length
  | .error _ => 0

/-- Write `add_entry("hello")` to an empty journal, read the store back, and
collect the contents returned. -/
def journalDemoRead : Except String (List String) :=
  (journalAddEntry "" 0 "hello").map
    (fun r => (journalGetAllEntries r.2.1).map (fun e => e.content))

/-- The same write/read, collecting the parsed frontmatter `type` values (to
show the read-back succeeds and only the content diverges). -/
def journalDemoTypes : Except String (List (Option YVal)) :=
  (journalAddEntry "" 0 "hello").map
    (fun r => (journalGetAllEntries r.2.1).map (fun e => fmGet e.frontmatter "type"))

/-- The Telos write/read round trip at the same concrete input. -/
def telosDemoRead : Except String (List (Option String)) :=
  (addGoal [] 0 "Ship it").map
    (fun r => (getAllEntries r.2.1).map (fun e => e.content))

/-! ### Claim-side validity predicates (for the C3 characterization) -/

/-- The claim's per-item validity conditions for a structured (Telos) item:
a known action; non-blank content for the add actions; for `update_status` a
truthy target id, a truthy new status valid for the status set inferred from
the target kind; a priority, when truthy, from the valid set. -/
def talaosItemValid (tp : TelosProposal) : Prop :=
  tp.action ∈ telosActions ∧
  ((tp.action = "add_goal" ∨ tp.action = "add_task") →
     ∃ c, tp.content = some c ∧ pyStrip c ≠ "") ∧
  (tp.action = "update_status" →
     (optTruthy tp.goal_id = true ∨ optTruthy tp.task_id = true) ∧
     optTruthy tp.new_status = true ∧
     tp.new_status.getD "" ∈
       (if optTruthy tp.goal_id then goalStatuses else taskStatuses)) ∧
  (optTruthy tp.priority = true → tp.priority.getD "" ∈ ["low", "medium", "high"])

/-- The claim's per-item validity conditions for a narrative (journal) item. -/
def journalItemValid (jp : JournalProposal) : Prop :=
  jp.action = "add_entry" ∧ pyStrip jp.content ≠ "" ∧ jp.entry_type ∈ journalTypes

/-! ## Helper lemmas -/

theorem digc_isDigit (m : Nat) : (digc m).isDigit = true := by
  have h : m % 10 < 10 := Nat.mod_lt _ (by norm_num)
  unfold digc
  generalize hk : m % 10 = k at h ⊢
  interval_cases k <;> decide

theorem validateTimestamp_mkTimestamp (n : Nat) :
    validateTimestamp (mkTimestamp n) = true := by
  simp [validateTimestamp, mkTimestamp, String.toList, isoTimeOk, isoFracOk,
    isoOffsetOk, allDigits, digc_isDigit]

theorem validateEntry_goal (id c : String) (tags : List String) (pr : String)
    (dd : Option String) (pg : Option String) (k : Nat) :
    validateEntry
      { id := id, timestamp := mkTimestamp k, type := "goal",
        content := some c, status := some "active", tags := some tags,
        priority := some pr, due_date := dd, parent_goal := pg } = true := by
  simp [validateEntry, validateTimestamp_mkTimestamp, goalStatuses]

theorem validateEntry_task (id c : String) (tags : List String) (pr : String)
    (dd : Option String) (pg : Option String) (k : Nat) :
    validateEntry
      { id := id, timestamp := mkTimestamp k, type := "task",
        content := some c, status := some "pending", tags := some tags,
        priority := some pr, due_date := dd, parent_goal := pg } = true := by
  simp [validateEntry, validateTimestamp_mkTimestamp, taskStatuses]

theorem validateEntry_statusUpdateRec (eid : String) (c : TEntry) (S : String)
    (k : Nat)
    (h : (c.type = "goal" ∧ S ∈ goalStatuses) ∨ (c.type = "task" ∧ S ∈ taskStatuses)) :
    validateEntry (statusUpdateRec eid c S k) = true := by
  rcases h with ⟨ht, hs⟩ | ⟨ht, hs⟩ <;>
    simp_all [validateEntry, statusUpdateRec, validateTimestamp_mkTimestamp,
      goalStatuses, taskStatuses]

theorem getAllEntries_append_valid (st : List TEntry) (e : TEntry)
    (h : validateEntry e = true) :
    getAllEntries (st ++ [e]) = getAllEntries st ++ [e] := by
  simp [getAllEntries, List.filter_append, h]

theorem find?_append_of_some {α : Type} {p : α → Bool} {l₁ l₂ : List α} {c : α}
    (h : l₁.find? p = some c) : (l₁ ++ l₂).find? p = some c := by
  simp [List.find?_append, h]

theorem statusUpdateRec_valid (eid : String) (c : TEntry) (S : String) (k : Nat)
    (hkind : c.type = "goal" ∨ c.type = "task")
    (hS : S ∈ (if c.type = "goal" then goalStatuses else taskStatuses)) :
    validateEntry (statusUpdateRec eid c S k) = true := by
  apply validateEntry_statusUpdateRec
  rcases hkind with h | h
  · left; exact ⟨h, by simpa [h] using hS⟩
  · right
    refine ⟨h, ?_⟩
    have hne : c.type ≠ "goal" := by simp [h]
    simpa [if_neg hne] using hS

theorem updateStatus_found (st : List TEntry) (clock : Nat) (eid S : String)
    (c : TEntry)
    (hfind : (getAllEntries st).find? (fun e => e.id == eid) = some c)
    (hkind : c.type = "goal" ∨ c.type = "task")
    (hS : S ∈ (if c.type = "goal" then goalStatuses else taskStatuses)) :
    updateStatus st clock eid S =
      .ok (true, st ++ [statusUpdateRec eid c S clock], clock + 2) := by
  have hvalid := statusUpdateRec_valid eid c S clock hkind hS
  have hcontains : ((if c.type == "goal" then goalStatuses else taskStatuses).contains S) = true := by
    rcases hkind with h | h <;> simp_all [List.contains]
  simp [updateStatus, hfind, hcontains, appendEntry, hvalid, hS, Except.map]

theorem resolve_after_append (st : List TEntry) (ann : TEntry) (eid : String)
    (h1 : ann.type = "status_update") (h2 : ann.target_id = some eid) :
    resolveCurrentStatus (st ++ [ann]) eid = ann.new_status := by
  have hp : (ann.type == "status_update" && ann.target_id == some eid) = true := by
    simp [h1, h2]
  simp [resolveCurrentStatus, List.filter_append, hp]

/-! ## Claim C1 -/

/-- C1, counterexample: a goal created `active` and then updated to
`completed` by `update_status` has resolved current status `completed`, yet
`getGoals("completed")` returns nothing and `getGoals("active")` still
returns the goal — the filters read the creation record's raw `status`
field, not the resolved status the claim describes. -/
theorem getGoals_resolved_status_cx :
    addGoal [] 0 "Ship it" = .ok ("goal_" ++ tsDigits 0, [sampleGoal], 2) ∧
    updateStatus [sampleGoal] 2 ("goal_" ++ tsDigits 0) "completed" =
      .ok (true, [sampleGoal, sampleAnn], 4) ∧
    resolveCurrentStatus [sampleGoal, sampleAnn] ("goal_" ++ tsDigits 0) =
      some "completed" ∧
    getGoals [sampleGoal, sampleAnn] (some "completed") = [] ∧
    getGoals [sampleGoal, sampleAnn] (some "active") = [sampleGoal] :=
  ⟨rfl, rfl, rfl, rfl, rfl⟩

/-- C1 (amended): `getGoals(S)` / `getTasks(S)` return exactly the valid
records of the matching kind whose creation-record `status` field equals `S`;
annotations are never consulted, so a goal created `active` and updated to
`completed` is still returned by `getGoals("active")` and not by
`getGoals("completed")`. -/
theorem getGoals_getTasks_filter_raw_status :
    (∀ (st : List TEntry) (f : String) (e : TEntry), f ≠ "" →
      (e ∈ getGoals st (some f) ↔
        e ∈ st ∧ validateEntry e = true ∧ e.type = "goal" ∧ e.status = some f)) ∧
    (∀ (st : List TEntry) (f : String) (e : TEntry), f ≠ "" →
      (e ∈ getTasks st (some f) none ↔
        e ∈ st ∧ validateEntry e = true ∧ e.type = "task" ∧ e.status = some f)) ∧
    getGoals [sampleGoal, sampleAnn] (some "active") = [sampleGoal] ∧
    getGoals [sampleGoal, sampleAnn] (some "completed") = [] := by
  have hemp : ∀ f : String, f ≠ "" → f.isEmpty = false := by
    intro f hf
    by_contra h
    rw [Bool.not_eq_false] at h
    exact hf ((String.isEmpty_iff f).mp h)
  refine ⟨?_, ?_, rfl, rfl⟩
  · intro st f e hf
    simp [getGoals, getAllEntries, optTruthy, hemp f hf, List.mem_filter, and_assoc]
    tauto
  · intro st f e hf
    simp [getTasks, getAllEntries, optTruthy, hemp f hf, List.mem_filter, and_assoc]
    tauto

/-- C1 witness: the amended characterization applied at the sample store with
filter `"active"`. -/
theorem getGoals_getTasks_filter_raw_status_witness :
    ("active" : String) ≠ "" ∧
    (sampleGoal ∈ getGoals [sampleGoal, sampleAnn] (some "active") ↔
      sampleGoal ∈ [sampleGoal, sampleAnn] ∧ validateEntry sampleGoal = true ∧
      sampleGoal.type = "goal" ∧ sampleGoal.status = some "active") :=
  ⟨by decide,
   getGoals_getTasks_filter_raw_status.1 [sampleGoal, sampleAnn] "active"
     sampleGoal (by decide)⟩

/-! ## Claim C2 -/

/-- C2, counterexample: `add_goal("")` and `add_task("  ")` do not fail —
`_validate_entry` only checks that the `content` key is present, so each call
appends one creation record and returns its id. -/
theorem addGoal_empty_content_cx :
    addGoal [] 0 "" = .ok ("goal_" ++ tsDigits 0, [sampleEmptyGoal], 2) ∧
    addTask [] 0 "  " = .ok ("task_" ++ tsDigits 0, [sampleEmptyTask], 2) :=
  ⟨rfl, rfl⟩

/-- C2 (amended): for every content string — empty, whitespace-only or not —
`add_goal` and `add_task` succeed, append exactly one creation record
carrying the given fields, and return the new id; no validation error is
possible on this path. -/
theorem addGoal_addTask_accept_any_content :
    ∀ (st : List TEntry) (clock : Nat) (content : String) (tags : List String)
      (priority : String) (due_date parent : Option String),
      addGoal st clock content tags priority due_date =
        .ok ("goal_" ++ tsDigits clock,
             st ++ [{ id := "goal_" ++ tsDigits clock,
                      timestamp := mkTimestamp (clock + 1), type := "goal",
                      content := some content, status := some "active",
                      tags := some tags, priority := some priority,
                      due_date := due_date, parent_goal := none }],
             clock + 2) ∧
      addTask st clock content parent tags priority due_date =
        .ok ("task_" ++ tsDigits clock,
             st ++ [{ id := "task_" ++ tsDigits clock,
                      timestamp := mkTimestamp (clock + 1), type := "task",
                      content := some content, status := some "pending",
                      tags := some tags, priority := some priority,
                      due_date := due_date, parent_goal := parent }],
             clock + 2) := by
  intro st clock content tags priority dd pg
  constructor
  · simp [addGoal, appendEntry, validateEntry_goal, Except.map]
  · simp [addTask, appendEntry, validateEntry_task, Except.map]

/-! ## Claim C6 -/

/-- C6: a successful `update_status(id, S)` appends exactly one
`status_update` annotation carrying `new_status = S`; afterwards the
resolved current status of `id` is `S` while the store keeps the original
creation record unchanged as the first entry with that id; `update_status`
returns `false` (changing nothing) when no entry has the id, and raises a
validation error when `S` is not in the permitted set for the record's
kind. -/
theorem updateStatus_contract :
    ∀ (st : List TEntry) (clock : Nat) (eid S : String),
      (∀ c : TEntry,
        (getAllEntries st).find? (fun e => e.id == eid) = some c →
        (c.type = "goal" ∨ c.type = "task") →
        ((S ∈ (if c.type = "goal" then goalStatuses else taskStatuses) →
            updateStatus st clock eid S =
              .ok (true, st ++ [statusUpdateRec eid c S clock], clock + 2) ∧
            (statusUpdateRec eid c S clock).new_status = some S ∧
            resolveCurrentStatus (st ++ [statusUpdateRec eid c S clock]) eid =
              some S ∧
            (getAllEntries (st ++ [statusUpdateRec eid c S clock])).find?
                (fun e => e.id == eid) = some c) ∧
         (S ∉ (if c.type = "goal" then goalStatuses else taskStatuses) →
            ∃ msg, updateStatus st clock eid S = .error msg))) ∧
      ((getAllEntries st).find? (fun e => e.id == eid) = none →
        updateStatus st clock eid S = .ok (false, st, clock)) := by
  intro st clock eid S
  constructor
  · intro c hfind hkind
    constructor
    · intro hS
      have hvalid := statusUpdateRec_valid eid c S clock hkind hS
      refine ⟨updateStatus_found st clock eid S c hfind hkind hS, rfl, ?_, ?_⟩
      · simpa [statusUpdateRec] using
          resolve_after_append st (statusUpdateRec eid c S clock) eid rfl rfl
      · rw [getAllEntries_append_valid _ _ hvalid]
        exact find?_append_of_some hfind
    · intro hS
      exact ⟨"TelosError: Invalid status for " ++ c.type ++ ": " ++ S,
             by simp [updateStatus, hfind, hS]⟩
  · intro hnone
    simp [updateStatus, hnone]

/-- C6 witness: the contract applied to the store holding `sampleGoal`, with
the valid goal status `"completed"`. -/
theorem updateStatus_contract_witness :
    (getAllEntries [sampleGoal]).find?
        (fun e => e.id == "goal_" ++ tsDigits 0) = some sampleGoal ∧
    (sampleGoal.type = "goal" ∨ sampleGoal.type = "task") ∧
    "completed" ∈ (if sampleGoal.type = "goal" then goalStatuses else taskStatuses) ∧
    updateStatus [sampleGoal] 2 ("goal_" ++ tsDigits 0) "completed" =
      .ok (true,
        [sampleGoal] ++ [statusUpdateRec ("goal_" ++ tsDigits 0) sampleGoal "completed" 2],
        2 + 2) :=
  ⟨by decide, by decide, by decide,
   (((updateStatus_contract [sampleGoal] 2 ("goal_" ++ tsDigits 0) "completed").1
       sampleGoal (by decide) (by decide)).1 (by decide)).1⟩

/-! ## Claim C9 -/

/-- C9: the `old_status` written into an annotation is always the `status`
field of the creation record found by id (never the resolved current
status): after two successive updates, the second annotation's `old_status`
equals the creation record's original status, and differs from the first
update's `new_status` whenever the original status does. -/
theorem updateStatus_old_status_from_creation :
    ∀ (st : List TEntry) (clock : Nat) (eid S1 S2 : String) (c : TEntry),
      (getAllEntries st).find? (fun e => e.id == eid) = some c →
      (c.type = "goal" ∨ c.type = "task") →
      S1 ∈ (if c.type = "goal" then goalStatuses else taskStatuses) →
      S2 ∈ (if c.type = "goal" then goalStatuses else taskStatuses) →
      updateStatus st clock eid S1 =
        .ok (true, st ++ [statusUpdateRec eid c S1 clock], clock + 2) ∧
      updateStatus (st ++ [statusUpdateRec eid c S1 clock]) (clock + 2) eid S2 =
        .ok (true,
          (st ++ [statusUpdateRec eid c S1 clock]) ++
            [statusUpdateRec eid c S2 (clock + 2)],
          clock + 2 + 2) ∧
      (statusUpdateRec eid c S2 (clock + 2)).old_status = c.status ∧
      (statusUpdateRec eid c S1 clock).new_status = some S1 ∧
      (c.status ≠ some S1 →
        (statusUpdateRec eid c S2 (clock + 2)).old_status ≠ some S1) := by
  intro st clock eid S1 S2 c hfind hkind hS1 hS2
  have hvalid1 := statusUpdateRec_valid eid c S1 clock hkind hS1
  have hfind2 : (getAllEntries (st ++ [statusUpdateRec eid c S1 clock])).find?
      (fun e => e.id == eid) = some c := by
    rw [getAllEntries_append_valid _ _ hvalid1]
    exact find?_append_of_some hfind
  refine ⟨updateStatus_found st clock eid S1 c hfind hkind hS1,
          updateStatus_found _ (clock + 2) eid S2 c hfind2 hkind hS2,
          rfl, rfl, ?_⟩
  intro hne
  simpa [statusUpdateRec] using hne

/-! ## Claim C5 -/

/-- C5, counterexample: `parse_llm_output("3", q)` finds no fenced block,
decodes the whole output as the JSON number 3, and then crashes in
`_parse_json_proposal` with an `AttributeError` (`parsed.get` on an `int`) —
an exception that is neither absent nor a validation failure. -/
theorem parseLlmOutput_raises_cx :
    parseLlmOutput "3" "q" 0 =
      .error (.attributeError "object has no attribute get") := rfl

/-- C5 (amended): on any output with no decodable JSON (no fenced block and
an undecodable body), `parse_llm_output` never raises: it degrades to the
heuristic text path, whose intent carries confidence exactly 0.3, at most 2
structured items and at most 1 narrative item, and the only error it can
surface is a validation failure (`ProposalError`); but when the output
decodes to a non-object JSON value the `parsed.get` attribute access raises,
so "never raises on malformed input" does not hold in general. -/
theorem parseLlmOutput_textpath_degrades :
    ∀ (s q : String) (clock : Nat),
      extractFencedJson s = none → jsonLoads s = none →
      (∃ p, parseLlmOutput s q clock = .ok p ∧
            p.confidence_score = (3 : Rat) / 10 ∧
            p.talaos_proposals.length ≤ 2 ∧
            p.journal_proposals.length ≤ 1) ∨
      (∃ msg, parseLlmOutput s q clock = .error (.proposalError msg)) := by
  intro s q clock hfence hloads
  have hred : parseLlmOutput s q clock = parseTextProposal s q clock := by
    simp [parseLlmOutput, hfence, hloads]
  cases hval : validateProposal (textProposal s clock) with
  | ok u =>
    left
    refine ⟨textProposal s clock, ?_, rfl, ?_, ?_⟩
    · rw [hred]
      unfold parseTextProposal
      rw [hval]
    · simp [textProposal, List.length_take]
    · simp [textProposal, List.length_take]
  | error e =>
    right
    refine ⟨e, ?_⟩
    rw [hred]
    unfold parseTextProposal
    rw [hval]

/-- C5 witness: the text path at the concrete output `"hello"` (no fenced
block, not JSON). -/
theorem parseLlmOutput_textpath_degrades_witness :
    extractFencedJson "hello" = none ∧ jsonLoads "hello" = none ∧
    ((∃ p, parseLlmOutput "hello" "hi" 0 = .ok p ∧
           p.confidence_score = (3 : Rat) / 10 ∧
           p.talaos_proposals.length ≤ 2 ∧
           p.journal_proposals.length ≤ 1) ∨
     (∃ msg, parseLlmOutput "hello" "hi" 0 = .error (.proposalError msg))) :=
  ⟨rfl, rfl, parseLlmOutput_textpath_degrades "hello" "hi" 0 rfl rfl⟩

/-! ## Claim C7 -/

/-- C7: evaluation at the failing input.  A Telos goal round-trips exactly,
and the journal entry's frontmatter is read back intact — but the *content*
of the last journal entry comes back with the visual separator appended:
`get_all_entries` strips the whole file first, which removes the final blank
lines, so the split pattern (which requires a blank line after the equals
run) never matches the trailing separator and the 50 `=` signs end up inside
the entry's content.  Writing `"hello"` reads back
`"hello\n\n\n" ++ 50 * "="`, violating the round-trip the claim states. -/
theorem journal_roundtrip_divergence :
    telosDemoRead = .ok [some "Ship it"] ∧
    journalDemoTypes = .ok [some (YVal.str "reflection")] ∧
    journalDemoRead = .ok ["hello\n\n\n" ++ sepLine] ∧
    ("hello\n\n\n" ++ sepLine) ≠ "hello" :=
  ⟨rfl, rfl, rfl, by decide⟩

/-! ## Claim C3 -/

theorem validateTalaosProposal_ok_iff (tp : TelosProposal) :
    validateTalaosProposal tp = .ok () ↔ talaosItemValid tp := by
  unfold validateTalaosProposal
  split_ifs with h1 h2 h3 h4 h5 h6
  · refine iff_of_false (by simp) (fun hv => ?_)
    unfold talaosItemValid at hv
    simp only [tpBadAction, Bool.not_eq_true', List.contains] at h1
    simp_all
  · refine iff_of_false (by simp) (fun hv => ?_)
    unfold talaosItemValid at hv
    simp only [tpBadContent, Bool.and_eq_true, Bool.or_eq_true, beq_iff_eq] at h2
    obtain ⟨c, hc, hne⟩ := hv.2.1 h2.1
    rw [hc] at h2
    exact hne ((String.isEmpty_iff _).mp h2.2)
  · refine iff_of_false (by simp) (fun hv => ?_)
    unfold talaosItemValid at hv
    simp only [tpMissingTarget, Bool.and_eq_true, Bool.not_eq_true', beq_iff_eq] at h3
    rcases (hv.2.2.1 h3.1.1).1 with h | h
    · rw [h3.1.2] at h; cases h
    · rw [h3.2] at h; cases h
  · refine iff_of_false (by simp) (fun hv => ?_)
    unfold talaosItemValid at hv
    simp only [tpMissingStatus, Bool.and_eq_true, Bool.not_eq_true', beq_iff_eq] at h4
    have := (hv.2.2.1 h4.1).2.1
    rw [h4.2] at this; cases this
  · refine iff_of_false (by simp) (fun hv => ?_)
    unfold talaosItemValid at hv
    simp only [tpBadStatus, Bool.and_eq_true, Bool.not_eq_true', beq_iff_eq,
      List.contains] at h5
    have := (hv.2.2.1 h5.1).2.2
    simp_all
  · refine iff_of_false (by simp) (fun hv => ?_)
    unfold talaosItemValid at hv
    simp only [tpBadPriority, Bool.and_eq_true, Bool.not_eq_true', List.contains] at h6
    have := hv.2.2.2 h6.1
    simp_all
  · apply iff_of_true rfl
    unfold talaosItemValid
    refine ⟨?_, ?_, ?_, ?_⟩
    · simp only [tpBadAction, Bool.not_eq_true, Bool.not_eq_true',
        Bool.not_eq_false, List.contains] at h1
      simpa using h1
    · intro hAdd
      match hc : tp.content with
      | none => exact absurd (by simp [tpBadContent, hAdd, hc]) h2
      | some c =>
        refine ⟨c, rfl, fun hce => ?_⟩
        exact absurd (by simp [tpBadContent, hAdd, hc,
          (String.isEmpty_iff (pyStrip c)).mpr hce]) h2
    · intro hUpd
      refine ⟨?_, ?_, ?_⟩
      · by_contra hno
        push_neg at hno
        simp only [ne_eq, Bool.not_eq_true] at hno
        exact absurd (by simp [tpMissingTarget, hUpd, hno.1, hno.2]) h3
      · by_contra hno
        simp only [ne_eq, Bool.not_eq_true] at hno
        exact absurd (by simp [tpMissingStatus, hUpd, hno]) h4
      · by_contra hno
        refine absurd ?_ h5
        simp only [tpBadStatus, hUpd, Bool.and_eq_true, Bool.not_eq_true',
          beq_iff_eq, List.contains]
        simpa using hno
    · intro hPr
      by_contra hno
      refine absurd ?_ h6
      simp only [tpBadPriority, hPr, Bool.and_eq_true, Bool.not_eq_true',
        List.contains]
      simpa using hno

theorem validateJournalProposal_ok_iff (jp : JournalProposal) :
    validateJournalProposal jp = .ok () ↔ journalItemValid jp := by
  unfold validateJournalProposal journalItemValid
  split_ifs with h1 h2 h3
  · refine iff_of_false (by simp) (fun hv => ?_)
    simp only [jpBadAction, Bool.not_eq_true', List.contains] at h1
    simp_all
  · refine iff_of_false (by simp) (fun hv => ?_)
    exact hv.2.1 ((String.isEmpty_iff _).mp h2)
  · refine iff_of_false (by simp) (fun hv => ?_)
    simp only [jpBadType, Bool.not_eq_true', List.contains] at h3
    simp_all
  · apply iff_of_true rfl
    simp only [jpBadAction, jpBadContent, jpBadType, Bool.not_eq_true',
      Bool.not_eq_false, List.contains] at h1 h2 h3
    refine ⟨by simpa using h1, ?_, by simpa using h3⟩
    intro hce
    exact h2 ((String.isEmpty_iff _).mpr hce)

theorem validateTalaosList_ok_iff (l : List TelosProposal) :
    validateTalaosList l = .ok () ↔ ∀ tp ∈ l, validateTalaosProposal tp = .ok () := by
  induction l with
  | nil => simp [validateTalaosList]
  | cons tp rest ih =>
    cases h : validateTalaosProposal tp with
    | ok u => cases u; simp [validateTalaosList, h, ih]
    | error e => simp [validateTalaosList, h]

theorem validateJournalList_ok_iff (l : List JournalProposal) :
    validateJournalList l = .ok () ↔ ∀ jp ∈ l, validateJournalProposal jp = .ok () := by
  induction l with
  | nil => simp [validateJournalList]
  | cons jp rest ih =>
    cases h : validateJournalProposal jp with
    | ok u => cases u; simp [validateJournalList, h, ih]
    | error e => simp [validateJournalList, h]

theorem talaosAction_of_ok (tp : TelosProposal)
    (h : validateTalaosProposal tp = .ok ()) :
    telosActions.contains tp.action = true := by
  unfold validateTalaosProposal at h
  split_ifs at h with h1 h2 h3 h4 h5 h6
  simpa [tpBadAction] using h1

theorem journalAction_of_ok (jp : JournalProposal)
    (h : validateJournalProposal jp = .ok ()) : jp.action = "add_entry" := by
  unfold validateJournalProposal at h
  split_ifs at h with h1 h2 h3
  simpa [jpBadAction] using h1

theorem checkTalaosActions_ok (l : List TelosProposal)
    (h : ∀ tp ∈ l, validateTalaosProposal tp = .ok ()) :
    checkTalaosActions l = .ok () := by
  induction l with
  | nil => rfl
  | cons tp rest ih =>
    have hc := talaosAction_of_ok tp (h tp (by simp))
    simp only [checkTalaosActions, hc, if_true]
    exact ih (fun x hx => h x (by simp [hx]))

theorem checkJournalActions_ok (l : List JournalProposal)
    (h : ∀ jp ∈ l, validateJournalProposal jp = .ok ()) :
    checkJournalActions l = .ok () := by
  induction l with
  | nil => rfl
  | cons jp rest ih =>
    have hc : (jp.action == "add_entry") = true := by
      simp [journalAction_of_ok jp (h jp (by simp))]
    simp only [checkJournalActions, hc, if_true]
    exact ih (fun x hx => h x (by simp [hx]))

/-- C3: validation of a mutation intent is atomic — `_validate_proposal`
succeeds exactly when the confidence is in range, every structured item and
every narrative item is individually valid, and the total item count is at
most the safety ceiling of 5.  Any single invalid item (bad action, blank
content for `add_*`, missing target or invalid status for `update_status`,
invalid priority or entry type) or an over-ceiling count makes the whole
intent fail with an error; validation is a pure check, so a failed intent
applies no item and leaves the stores untouched, with no truncation or
partial acceptance. -/
theorem validateProposal_atomic_characterization :
    ∀ p : ChangeProposal,
      validateProposal p = .ok () ↔
        ((0 ≤ p.confidence_score ∧ p.confidence_score ≤ 1) ∧
         (∀ tp ∈ p.talaos_proposals, talaosItemValid tp) ∧
         (∀ jp ∈ p.journal_proposals, journalItemValid jp) ∧
         p.talaos_proposals.length + p.journal_proposals.length ≤ 5) := by
  intro p
  by_cases hconf : (0 ≤ p.confidence_score ∧ p.confidence_score ≤ 1)
  case neg =>
    unfold validateProposal
    rw [if_pos hconf]
    exact iff_of_false (by simp) (fun hv => hconf hv.1)
  case pos =>
    unfold validateProposal
    rw [if_neg (not_not_intro hconf)]
    cases ht : validateTalaosList p.talaos_proposals with
    | error e =>
      refine iff_of_false (by simp) (fun hv => ?_)
      have : validateTalaosList p.talaos_proposals = .ok () :=
        (validateTalaosList_ok_iff _).mpr
          (fun tp htp => (validateTalaosProposal_ok_iff tp).mpr (hv.2.1 tp htp))
      rw [ht] at this
      cases this
    | ok u =>
      cases u
      cases hj : validateJournalList p.journal_proposals with
      | error e =>
        refine iff_of_false (by simp) (fun hv => ?_)
        have : validateJournalList p.journal_proposals = .ok () :=
          (validateJournalList_ok_iff _).mpr
            (fun jp hjp => (validateJournalProposal_ok_iff jp).mpr (hv.2.2.1 jp hjp))
        rw [hj] at this
        cases this
      | ok u2 =>
        cases u2
        have hT := (validateTalaosList_ok_iff _).mp ht
        have hJ := (validateJournalList_ok_iff _).mp hj
        by_cases hcount :
            p.talaos_proposals.length + p.journal_proposals.length > 5
        · rw [if_pos hcount]
          exact iff_of_false (by simp) (fun hv => absurd hv.2.2.2 (by omega))
        · rw [if_neg hcount]
          rw [checkTalaosActions_ok _ hT, checkJournalActions_ok _ hJ]
          refine iff_of_true rfl
            ⟨hconf,
             fun tp htp => (validateTalaosProposal_ok_iff tp).mp (hT tp htp),
             fun jp hjp => (validateJournalProposal_ok_iff jp).mp (hJ jp hjp),
             by omega⟩

/-! ## Claim C4 -/

theorem applyTalaosChange_changes (w : World) (tp : TelosProposal)
    (pid : String) (n : Nat) :
    (applyTalaosChange w tp pid n).2.changes = w.changes := by
  simp only [applyTalaosChange]
  repeat' split
  all_goals rfl

theorem applyJournalChange_changes (w : World) (jp : JournalProposal)
    (pid : String) (n : Nat) :
    (applyJournalChange w jp pid n).2.changes = w.changes := by
  simp only [applyJournalChange]
  repeat' split
  all_goals rfl

theorem applyTalaosList_spec (l : List TelosProposal) :
    ∀ (w : World) (pid : String) (ctr : Nat),
      (applyTalaosList w pid ctr l).1.length = l.length ∧
      (applyTalaosList w pid ctr l).2.1.changes = w.changes := by
  induction l with
  | nil => intro w pid ctr; simp [applyTalaosList]
  | cons tp rest ih =>
    intro w pid ctr
    rcases hc : applyTalaosChange w tp pid (ctr + 1) with ⟨r, w2⟩
    have h2 := applyTalaosChange_changes w tp pid (ctr + 1)
    rw [hc] at h2
    have ihr := ih w2 pid (ctr + 1)
    rcases hl : applyTalaosList w2 pid (ctr + 1) rest with ⟨rs, w3, c3⟩
    rw [hl] at ihr
    simp only [applyTalaosList, hc, hl]
    have hlen : rs.length = rest.length := ihr.1
    have hch : w3.changes = w2.changes := ihr.2
    exact ⟨by simp [hlen], by rw [hch, h2]⟩

theorem applyJournalList_spec (l : List JournalProposal) :
    ∀ (w : World) (pid : String) (ctr : Nat),
      (applyJournalList w pid ctr l).1.length = l.length ∧
      (applyJournalList w pid ctr l).2.1.changes = w.changes := by
  induction l with
  | nil => intro w pid ctr; simp [applyJournalList]
  | cons jp rest ih =>
    intro w pid ctr
    rcases hc : applyJournalChange w jp pid (ctr + 1) with ⟨r, w2⟩
    have h2 := applyJournalChange_changes w jp pid (ctr + 1)
    rw [hc] at h2
    have ihr := ih w2 pid (ctr + 1)
    rcases hl : applyJournalList w2 pid (ctr + 1) rest with ⟨rs, w3, c3⟩
    rw [hl] at ihr
    simp only [applyJournalList, hc, hl]
    have hlen : rs.length = rest.length := ihr.1
    have hch : w3.changes = w2.changes := ihr.2
    exact ⟨by simp [hlen], by rw [hch, h2]⟩

/-- C4: application of an approved intent is best-effort and independent per
item — the loops never abort, every item yields exactly one record, every
record is appended to the audit log (the `audit_records` list equals
`changes_applied`, and the audit file receives exactly those records), and
the overall success flag is true exactly when every per-item record is
successful.  The concrete conjuncts apply an intent whose first item targets
a nonexistent id: the failure is recorded as `success:false`, the remaining
two items still run and succeed, all three records reach the audit log, and
the overall flag is false. -/
theorem applyChangesWithAudit_best_effort :
    (∀ (w : World) (p : ChangeProposal),
      ∃ res w2, applyChangesWithAudit w p true = .ok (res, w2) ∧
        res.changes_applied.length =
          p.talaos_proposals.length + p.journal_proposals.length ∧
        res.audit_records = res.changes_applied ∧
        w2.changes = w.changes ++ res.changes_applied ∧
        (res.success = true ↔ ∀ r ∈ res.changes_applied, r.success = true)) ∧
    sampleApplySuccesses = [false, true, true] ∧
    sampleApplyOverall = some false ∧
    sampleApplyAuditCount = 3 := by
  refine ⟨?_, rfl, rfl, rfl⟩
  intro w p
  rcases h1 : applyTalaosList { w with clock := w.clock + 1 } p.proposal_id 0
      p.talaos_proposals with ⟨recs1, w2, c1⟩
  rcases h2 : applyJournalList w2 p.proposal_id c1 p.journal_proposals with
    ⟨recs2, w3, c2⟩
  have ht := applyTalaosList_spec p.talaos_proposals
    { w with clock := w.clock + 1 } p.proposal_id 0
  rw [h1] at ht
  have hj := applyJournalList_spec p.journal_proposals w2 p.proposal_id c1
  rw [h2] at hj
  have ht1 : recs1.length = p.talaos_proposals.length := ht.1
  have ht2 : w2.changes = w.changes := ht.2
  have hj1 : recs2.length = p.journal_proposals.length := hj.1
  have hj2 : w3.changes = w2.changes := hj.2
  refine ⟨{ proposal_id := p.proposal_id, applied_at := mkTimestamp w.clock,
            user_approved := true, changes_applied := recs1 ++ recs2,
            audit_records := recs1 ++ recs2,
            success := ((recs1 ++ recs2).filter (fun r => !r.success)).isEmpty,
            summary := createChangeSummary p },
          { w3 with changes := w3.changes ++ (recs1 ++ recs2) },
          by simp [applyChangesWithAudit, h1, h2], ?_, rfl, ?_, ?_⟩
  · simp [ht1, hj1]
  · show w3.changes ++ (recs1 ++ recs2) = w.changes ++ (recs1 ++ recs2)
    rw [hj2, ht2]
  · show ((recs1 ++ recs2).filter (fun r => !r.success)).isEmpty = true ↔
      ∀ r ∈ recs1 ++ recs2, r.success = true
    simp [List.isEmpty_iff, List.filter_eq_nil_iff]
    constructor
    · rintro ⟨ha, hb⟩ r (hr | hr)
      · exact ha r hr
      · exact hb r hr
    · intro h
      exact ⟨fun r hr => h r (Or.inl hr), fun r hr => h r (Or.inr hr)⟩

/-! ## Claim C8 -/

/-- C8: for every rendered context text (hence for everything `build_context`
can return, since it returns exactly `_enforce_size_limits` applied to the
rendered text) and every configured character budget of at least 100 (the
reserved suffix; the default configuration yields 16000), the result is at
most the budget; a text within the budget is returned unchanged, and a text
over the budget is hard-truncated to the budget minus the 100-character
reserve and ends with the literal truncation notice. -/
theorem enforceSizeLimits_bounded :
    ∀ (max_size : Nat) (context : String), 100 ≤ max_size →
      (enforceSizeLimits max_size context).length ≤ max_size ∧
      (context.length ≤ max_size → enforceSizeLimits max_size context = context) ∧
      (max_size < context.length →
        enforceSizeLimits max_size context =
          String.mk (context.toList.take (max_size - 100)) ++ truncationNotice ∧
        ∃ pre, enforceSizeLimits max_size context = pre ++ truncationNotice) := by
  intro m ctx hm
  by_cases hle : ctx.length ≤ m
  · exact ⟨by simp [enforceSizeLimits, hle],
           fun _ => by simp [enforceSizeLimits, hle],
           fun hgt => absurd hgt (by omega)⟩
  · have hgt : m < ctx.length := Nat.not_le.mp hle
    have hpos : (0 : Int) ≤ (m : Int) - 100 := by omega
    have ht : ((m : Int) - 100).toNat = m - 100 := by omega
    have h1 : enforceSizeLimits m ctx =
        String.mk (ctx.toList.take (m - 100)) ++ truncationNotice := by
      unfold enforceSizeLimits
      rw [if_neg hle]
      unfold pySliceTo
      rw [if_pos hpos, ht]
    refine ⟨?_, fun hcon => absurd hcon (by omega), fun _ => ⟨h1, ⟨_, h1⟩⟩⟩
    rw [h1, String.length_append, String.length_mk, List.length_take]
    have h40 : truncationNotice.length = 40 := rfl
    rw [h40]
    have hlen : ctx.toList.length = ctx.length := rfl
    omega

/-- C8 witness: the bound applied at the default budget of 16000. -/
theorem enforceSizeLimits_bounded_witness :
    100 ≤ defaultMaxContextSize ∧
    (enforceSizeLimits defaultMaxContextSize "rendered context").length ≤
      defaultMaxContextSize :=
  ⟨by norm_num [defaultMaxContextSize],
   (enforceSizeLimits_bounded defaultMaxContextSize "rendered context"
      (by norm_num [defaultMaxContextSize])).1⟩

/-! ## Claim C10 -/

/-- C10: `apply_changes_with_audit` defaults `user_approval` to `True`, so a
call without an explicit approval applies the changes; it raises (before
touching any store or the audit log — the model returns the error with no
successor world) exactly when `user_approval` is `False`. -/
theorem applyChangesWithAudit_approval_gate :
    ∀ (w : World) (p : ChangeProposal),
      applyChangesWithAudit w p false =
        .error "Changes cannot be applied without user approval" ∧
      applyChangesWithAudit w p = applyChangesWithAudit w p true ∧
      ∀ b : Bool, (applyChangesWithAudit w p b).isOk = true ↔ b = true := by
  intro w p
  refine ⟨rfl, rfl, ?_⟩
  intro b
  cases b
  · simp [applyChangesWithAudit, Except.isOk, Except.toBool]
  · rcases h1 : applyTalaosList { w with clock := w.clock + 1 } p.proposal_id 0
        p.talaos_proposals with ⟨recs1, w2, c1⟩
    rcases h2 : applyJournalList w2 p.proposal_id c1 p.journal_proposals with
      ⟨recs2, w3, c2⟩
    simp [applyChangesWithAudit, h1, h2, Except.isOk, Except.toBool]

/-- C9 witness: the double update on the sample store — the second
annotation's `old_status` is `"active"` (the creation status), not
`"completed"`. -/
theorem updateStatus_old_status_from_creation_witness :
    (getAllEntries [sampleGoal]).find?
        (fun e => e.id == "goal_" ++ tsDigits 0) = some sampleGoal ∧
    (sampleGoal.type = "goal" ∨ sampleGoal.type = "task") ∧
    "completed" ∈ (if sampleGoal.type = "goal" then goalStatuses else taskStatuses) ∧
    "cancelled" ∈ (if sampleGoal.type = "goal" then goalStatuses else taskStatuses) ∧
    (statusUpdateRec ("goal_" ++ tsDigits 0) sampleGoal "cancelled" (2 + 2)).old_status =
      sampleGoal.status :=
  ⟨by decide, by decide, by decide, by decide,
   (updateStatus_old_status_from_creation [sampleGoal] 2 ("goal_" ++ tsDigits 0)
      "completed" "cancelled" sampleGoal (by decide) (by decide) (by decide)
      (by decide)).2.2.1⟩

end Assistant
